import Mathlib

/-!
Verification of the Accordion widget: option validation, panel rendering and
the open/close panel state machine, shallowly embedded from
`src/unnamed/part_002` (the complete accordion implementation, whose
`_togglePanel` enforces the single-open contract) together with the
`isNil`/`assert` utilities of `src/unnamed/part_001`.

Strings are modelled as `List Char` where substring surgery matters
(the renderer), and as `String` elsewhere (validator and constructor).
-/

set_option maxRecDepth 100000

namespace Accordion

/-- The dollar character, which starts the escape sequences of the
replacement string of JavaScript `String.prototype.replace`. -/
def dollarChar : Char := '$'

/-- The backtick character (written by code point). -/
def backtickChar : Char := Char.ofNat 96

/-- The single-quote character (written by code point). -/
def singleQuoteChar : Char := Char.ofNat 39

/-- Embedding of the search step of JavaScript `s.replace(pat, repl)` with a
string pattern: returns the parts of `s` strictly before and strictly after
the first (leftmost) occurrence of `pat` in `s`, or `none` when `pat` does
not occur in `s`. -/
def splitFirst (pat : List Char) : List Char → Option (List Char × List Char)
  | [] => if pat = [] then some ([], []) else none
  | c :: rest =>
    if pat <+: (c :: rest) then some ([], (c :: rest).drop pat.length)
    else
      match splitFirst pat rest with
      | none => none
      | some (b, a) => some (c :: b, a)

/-- Whether `pat` occurs as a contiguous substring of `s`, computed by
`splitFirst`. -/
def occurs (pat s : List Char) : Bool := (splitFirst pat s).isSome

/-- Embedding of `GetSubstitution` from the ECMAScript specification,
restricted to a string (non-regexp) search: expands `$$`, `$&`, a dollar
followed by a backtick and a dollar followed by a quote inside the
replacement text; any other dollar is literal. `matched` is the matched
pattern, `before` and `after` are the parts of the subject string around
the match. -/
def getSubstitution (matched before after : List Char) : List Char → List Char
  | [] => []
  | [c] => [c]
  | c :: d :: rest =>
    if c = dollarChar then
      if d = dollarChar then dollarChar :: getSubstitution matched before after rest
      else if d = '&' then matched ++ getSubstitution matched before after rest
      else if d = backtickChar then before ++ getSubstitution matched before after rest
      else if d = singleQuoteChar then after ++ getSubstitution matched before after rest
      else c :: getSubstitution matched before after (d :: rest)
    else c :: getSubstitution matched before after (d :: rest)

/-- Embedding of JavaScript `s.replace(pat, repl)` with string arguments:
replaces the first occurrence of `pat`, if any, by the processed
replacement string. -/
def jsReplace (s pat repl : List Char) : List Char :=
  match splitFirst pat s with
  | none => s
  | some (b, a) => b ++ getSubstitution pat b a repl ++ a

theorem getSubstitution_of_not_mem_dollar (m b a : List Char) :
    ∀ repl : List Char, dollarChar ∉ repl → getSubstitution m b a repl = repl
  | [], _ => rfl
  | [c], _ => rfl
  | c :: d :: rest, h => by
    have hc : ¬ c = dollarChar := fun hce => h (hce ▸ List.mem_cons_self c (d :: rest))
    have hr : dollarChar ∉ d :: rest := fun hm => h (List.mem_cons_of_mem c hm)
    simp only [getSubstitution, if_neg hc]
    rw [getSubstitution_of_not_mem_dollar m b a (d :: rest) hr]

theorem splitFirst_sound (pat : List Char) :
    ∀ s b a, splitFirst pat s = some (b, a) → s = b ++ pat ++ a
  | [], b, a, h => by
    by_cases hp : pat = []
    · simp only [splitFirst, if_pos hp, Option.some.injEq, Prod.mk.injEq] at h
      obtain ⟨hb, ha⟩ := h
      subst hb; subst ha
      simp [hp]
    · simp [splitFirst, if_neg hp] at h
  | c :: rest, b, a, h => by
    by_cases hp : pat <+: (c :: rest)
    · simp only [splitFirst, if_pos hp, Option.some.injEq, Prod.mk.injEq] at h
      obtain ⟨hb, ha⟩ := h
      subst hb; subst ha
      obtain ⟨t, ht⟩ := hp
      have hdrop : (c :: rest).drop pat.length = t := by
        rw [← ht, List.drop_left]
      rw [hdrop, List.nil_append, ht]
    · simp only [splitFirst, if_neg hp] at h
      cases hsp : splitFirst pat rest with
      | none => rw [hsp] at h; exact absurd h (by simp)
      | some p =>
        obtain ⟨b', a'⟩ := p
        rw [hsp] at h
        simp only [Option.some.injEq, Prod.mk.injEq] at h
        obtain ⟨hb, ha⟩ := h
        subst hb; subst ha
        have := splitFirst_sound pat rest b' a' hsp
        simp [this]

theorem splitFirst_complete (pat : List Char) :
    ∀ s, splitFirst pat s = none → ¬ pat <:+: s
  | [], h => by
    intro ⟨u, v, huv⟩
    have hp : pat = [] := by
      rcases List.append_eq_nil.mp huv with ⟨h1, _⟩
      exact (List.append_eq_nil.mp h1).2
    rw [hp] at h
    simp [splitFirst] at h
  | c :: rest, h => by
    by_cases hp : pat <+: (c :: rest)
    · simp [splitFirst, if_pos hp] at h
    · simp only [splitFirst, if_neg hp] at h
      cases hsp : splitFirst pat rest with
      | some p => rw [hsp] at h; exact absurd h (by simp)
      | none =>
        intro ⟨u, v, huv⟩
        cases u with
        | nil =>
          exact hp ⟨v, by simpa using huv⟩
        | cons x u' =>
          have : pat <:+: rest := ⟨u', v, by simpa using congrArg List.tail huv⟩
          exact splitFirst_complete pat rest hsp this

theorem occurs_iff (pat s : List Char) : occurs pat s = true ↔ pat <:+: s := by
  constructor
  · intro h
    unfold occurs at h
    cases hsp : splitFirst pat s with
    | none => rw [hsp] at h; simp at h
    | some p =>
      obtain ⟨b, a⟩ := p
      exact ⟨b, a, (splitFirst_sound pat s b a hsp).symm⟩
  · intro h
    unfold occurs
    cases hsp : splitFirst pat s with
    | none => exact absurd h (splitFirst_complete pat s hsp)
    | some p => simp

theorem splitFirst_eq (pat s₂ : List Char) :
    ∀ s₁ : List Char,
      (∀ t, t <:+ s₁ → t ≠ [] → ¬ pat <+: (t ++ (pat ++ s₂))) →
      splitFirst pat (s₁ ++ (pat ++ s₂)) = some (s₁, s₂)
  | [], _ => by
    cases hps : pat ++ s₂ with
    | nil =>
      obtain ⟨hp, hs⟩ := List.append_eq_nil.mp hps
      subst hp; subst hs
      simp [splitFirst]
    | cons c rest =>
      have hpre : pat <+: (pat ++ s₂) := List.prefix_append pat s₂
      rw [hps] at hpre
      have hdrop : (c :: rest).drop pat.length = s₂ := by
        rw [← hps, List.drop_left]
      rw [List.nil_append]
      simp [splitFirst, if_pos hpre, hdrop]
  | c :: s₁', H => by
    have hnp : ¬ pat <+: ((c :: s₁') ++ (pat ++ s₂)) :=
      H (c :: s₁') (List.suffix_refl _) (by simp)
    have IH := splitFirst_eq pat s₂ s₁'
      (fun t ht hne => H t (ht.trans (List.suffix_cons c s₁')) hne)
    have hstep : (c :: s₁') ++ (pat ++ s₂) = c :: (s₁' ++ (pat ++ s₂)) := rfl
    rw [hstep] at hnp
    rw [hstep]
    simp only [splitFirst, if_neg hnp, IH]

/-- From `pat <+: t ++ tail` with `t` no longer than `pat`, conclude that
`t` is a prefix of `pat`. -/
theorem prefix_short_left {pat t tail : List Char} (hpre : pat <+: t ++ tail)
    (hlen : t.length ≤ pat.length) : t <+: pat := by
  obtain ⟨ext, hext⟩ := hpre
  have h1 : (t ++ tail).take t.length = t := List.take_left t tail
  rw [← hext] at h1
  have h2 : (pat ++ ext).take t.length = pat.take t.length :=
    List.take_append_of_le_length hlen
  rw [h2] at h1
  refine ⟨pat.drop t.length, ?_⟩
  have h3 := List.take_append_drop t.length pat
  rw [h1] at h3
  exact h3

/-- Splitting a suffix of a concatenation at the boundary. -/
theorem suffix_append_cases {α : Type} {t a b : List α} (h : t <:+ a ++ b) :
    t <:+ b ∨ ∃ t', t' <:+ a ∧ t' ≠ [] ∧ t = t' ++ b := by
  obtain ⟨u, hu⟩ := h
  rcases List.append_eq_append_iff.mp hu with ⟨m, hm1, hm2⟩ | ⟨m, hm1, hm2⟩
  · cases m with
    | nil =>
      left
      exact ⟨[], by simpa using hm2⟩
    | cons x xs =>
      right
      exact ⟨x :: xs, ⟨u, hm1.symm⟩, by simp, hm2⟩
  · left
    exact ⟨m, hm2.symm⟩

/-- Occurrences of `pat` cannot start inside a zone `a` of the subject when
no nonempty suffix of `a` extends to an occurrence; decidable form used for
concrete zones standing immediately before the matched occurrence. -/
theorem zone_concrete (pat a s₂ : List Char)
    (hd : ∀ t ∈ a.tails, t ≠ [] → ¬ pat <+: (t ++ pat)) :
    ∀ t, t <:+ a → t ≠ [] → ¬ pat <+: (t ++ (pat ++ s₂)) := by
  intro t ht hne hpre
  rw [← List.append_assoc] at hpre
  have hlen : pat.length ≤ (t ++ pat).length := by simp
  exact hd t ((List.mem_tails t a).mpr ht) hne
    ((List.isPrefix_append_of_length hlen).mp hpre)

/-- Occurrences of `pat` cannot start inside a concrete zone `a` when `pat`
does not occur inside `a` and no nonempty suffix of `a` is a prefix of
`pat`; the remainder `tail` of the subject is arbitrary. -/
theorem zone_concrete_far (pat a tail : List Char)
    (h1 : ¬ pat <:+: a)
    (h2 : ∀ t ∈ a.tails, t ≠ [] → ¬ t <+: pat) :
    ∀ t, t <:+ a → t ≠ [] → ¬ pat <+: (t ++ tail) := by
  intro t ht hne hpre
  by_cases hlen : pat.length ≤ t.length
  · exact h1 (((List.isPrefix_append_of_length hlen).mp hpre).isInfix.trans ht.isInfix)
  · exact h2 t ((List.mem_tails t a).mpr ht) hne
      (prefix_short_left hpre (Nat.le_of_not_le hlen))

/-- Occurrences of `pat` cannot start inside an arbitrary zone `w` when
`pat` does not occur inside `w` and the first character of the following
text does not occur in `pat` at all. -/
theorem zone_var (pat w rest : List Char) (c : Char)
    (hninf : ¬ pat <:+: w) (hhead : rest.head? = some c) (hc : c ∉ pat) :
    ∀ t, t <:+ w → t ≠ [] → ¬ pat <+: (t ++ rest) := by
  intro t ht hne hpre
  by_cases hlen : pat.length ≤ t.length
  · exact hninf (((List.isPrefix_append_of_length hlen).mp hpre).isInfix.trans ht.isInfix)
  · have htp : t <+: pat := prefix_short_left hpre (Nat.le_of_not_le hlen)
    obtain ⟨u, hu⟩ := htp
    obtain ⟨ext, hext⟩ := hpre
    rw [← hu, List.append_assoc] at hext
    have hrest : rest = u ++ ext := by
      have := List.append_cancel_left hext
      exact this.symm
    have hune : u ≠ [] := by
      rintro rfl
      rw [← hu] at hlen
      simp at hlen
    cases u with
    | nil => exact hune rfl
    | cons uh ut =>
      have hheadu : rest.head? = some uh := by rw [hrest]; rfl
      rw [hhead] at hheadu
      have : uh ∈ pat := by
        rw [← hu]
        exact List.mem_append_right t (List.mem_cons_self uh ut)
      rw [Option.some.injEq] at hheadu
      exact hc (hheadu ▸ this)

/-- A pattern does not occur in a concatenation when it occurs in neither
part and cannot straddle the boundary. -/
theorem not_infix_append (p b : List Char) :
    ∀ a : List Char,
      ¬ p <:+: a → ¬ p <:+: b →
      (∀ p₁ p₂, p = p₁ ++ p₂ → p₁ ≠ [] → p₂ ≠ [] → ¬ (p₁ <:+ a ∧ p₂ <+: b)) →
      ¬ p <:+: a ++ b
  | [], _, h2, _ => by simpa using h2
  | c :: a', h1, h2, h3 => by
    intro hinf
    rw [List.cons_append] at hinf
    rcases List.infix_cons_iff.mp hinf with hpre | htail
    · rw [← List.cons_append] at hpre
      by_cases hlen : p.length ≤ (c :: a').length
      · exact h1 ((List.isPrefix_append_of_length hlen).mp hpre).isInfix
      · have hlt : (c :: a').length < p.length := Nat.lt_of_not_le hlen
        have hca : (c :: a') <+: p := prefix_short_left hpre (Nat.le_of_lt hlt)
        obtain ⟨p₂, hp₂⟩ := hca
        have hp₂pre : p₂ <+: b := by
          obtain ⟨ext, hext⟩ := hpre
          rw [← hp₂, List.append_assoc] at hext
          exact ⟨ext, List.append_cancel_left hext⟩
        have hp₂ne : p₂ ≠ [] := by
          rintro rfl
          rw [← hp₂] at hlt
          simp at hlt
        exact h3 (c :: a') p₂ hp₂.symm (by simp) hp₂ne ⟨List.suffix_refl _, hp₂pre⟩
    · exact not_infix_append p b a'
        (fun hx => h1 (List.infix_cons hx))
        h2
        (fun p₁ p₂ hs h1' h2' ⟨hsuf, hpre⟩ =>
          h3 p₁ p₂ hs h1' h2' ⟨hsuf.trans (List.suffix_cons c a'), hpre⟩)
        htail

/-- Straddling occurrences are impossible when every nonempty proper tail of
the pattern starts with a character other than the first character of the
right-hand text. -/
theorem straddle_blocked_right (p a rest : List Char) (c : Char)
    (hhead : rest.head? = some c)
    (hd : ∀ k ∈ List.range p.length, k ≠ 0 → ¬ (p.drop k).head? = some c) :
    ∀ p₁ p₂, p = p₁ ++ p₂ → p₁ ≠ [] → p₂ ≠ [] → ¬ (p₁ <:+ a ∧ p₂ <+: rest) := by
  intro p₁ p₂ hsplit h1 h2 hcon
  obtain ⟨_, hpre⟩ := hcon
  have hp₂ : p₂ = p.drop p₁.length := by rw [hsplit, List.drop_left]
  have hk : p₁.length ∈ List.range p.length := by
    rw [List.mem_range, hsplit, List.length_append]
    have := List.length_pos.mpr h2
    omega
  have hkne : p₁.length ≠ 0 := by
    have := List.length_pos.mpr h1
    omega
  cases hp₂c : p₂ with
  | nil => exact h2 hp₂c
  | cons x xs =>
    have hx : rest.head? = some x := by
      obtain ⟨ext, hext⟩ := hpre
      rw [← hext, hp₂c]
      rfl
    rw [hhead, Option.some.injEq] at hx
    apply hd p₁.length hk hkne
    rw [← hp₂, hp₂c, hx]
    rfl

/-- Straddling occurrences are impossible when no nonempty proper prefix of
the pattern is a suffix of the left-hand text. -/
theorem straddle_blocked_left (p a b : List Char)
    (hd : ∀ k ∈ List.range p.length, k ≠ 0 → ¬ (p.take k) <:+ a) :
    ∀ p₁ p₂, p = p₁ ++ p₂ → p₁ ≠ [] → p₂ ≠ [] → ¬ (p₁ <:+ a ∧ p₂ <+: b) := by
  intro p₁ p₂ hsplit h1 h2 hcon
  obtain ⟨hsuf, _⟩ := hcon
  have hp₁ : p₁ = p.take p₁.length := by rw [hsplit, List.take_left]
  have hk : p₁.length ∈ List.range p.length := by
    rw [List.mem_range, hsplit, List.length_append]
    have := List.length_pos.mpr h2
    omega
  have hkne : p₁.length ≠ 0 := by
    have := List.length_pos.mpr h1
    omega
  exact hd p₁.length hk hkne (hp₁ ▸ hsuf)

/-! ## Renderer embedding

From `src/unnamed/part_002`: the `TEMPLATES` object and the `_renderPanel`
and `_render` methods. The template literals in the source indent their
lines with tab characters, reproduced here verbatim. -/

/-- The `TEMPLATES.headerTemplate` string of the source. -/
def headerTemplate : List Char := "<div class=\"header\">HEADER_TITLE</div>".data

/-- The `TEMPLATES.panelTemplate` string of the source. -/
def panelTemplate : List Char :=
  "\n\t<div class=\"panel DESCRIPTION_CLASS\">\n\t\t<div class=\"header\">\n\t\t\t<div class=\"text\">\n\t\t\t\t<div class=\"title\">PANEL_TITLE</div>\n\t\t\t\tDESCRIPTION_PLACEHOLDER\n\t\t\t</div>\n\t\t\t<div class=\"toggle\">\n\t\t\t\t<i class=\"icon material-icons\">expand_more</i>\n\t\t\t</div>\n\t\t</div>\n\t\t<div class=\"content\">\n\t\t\t<div class=\"content-wrapper\">PANEL_CONTENT</div>\n\t\t</div>\n\t</div>".data

/-- The `TEMPLATES.descriptionTemplate` string of the source. -/
def descriptionTemplate : List Char :=
  "<div class=\"description ellipsify\">PANEL_DESCRIPTION</div>".data

/-- The placeholder tokens of the templates. -/
def tokPT : List Char := "PANEL_TITLE".data

/-- The `DESCRIPTION_CLASS` placeholder token. -/
def tokDC : List Char := "DESCRIPTION_CLASS".data

/-- The `DESCRIPTION_PLACEHOLDER` placeholder token. -/
def tokDP : List Char := "DESCRIPTION_PLACEHOLDER".data

/-- The `PANEL_CONTENT` placeholder token. -/
def tokPC : List Char := "PANEL_CONTENT".data

/-- The `PANEL_DESCRIPTION` placeholder token. -/
def tokPD : List Char := "PANEL_DESCRIPTION".data

/-- The class marking panels that carry a description. -/
def withDescriptionClass : List Char := "with-description".data

/-- A panel as consumed by `_renderPanel`: a title, an optional subtitle and
an HTML content string. -/
structure RPanel where
  title : List Char
  subtitle : Option (List Char)
  content : List Char
deriving DecidableEq

/-- JavaScript truthiness of the `panel.subtitle` value read by
`_renderPanel`: `undefined`/`null` and the empty string are falsy. -/
def truthyStr : Option (List Char) → Bool
  | none => false
  | some s => !s.isEmpty

/-- Embedding of `_renderPanel`: four chained first-occurrence replacements
on the panel template, in source order. -/
def renderPanel (panel : RPanel) : List Char :=
  let hasDescription := truthyStr panel.subtitle
  jsReplace
    (jsReplace
      (jsReplace
        (jsReplace panelTemplate tokPT panel.title)
        tokDC (if hasDescription then withDescriptionClass else []))
      tokDP
      (if hasDescription then
        jsReplace descriptionTemplate tokPD (panel.subtitle.getD [])
      else []))
    tokPC panel.content

/-- Embedding of the `innerHTML` string assembled by `_render`: an optional
header fragment followed by the concatenation (`join("")`) of the panel
fragments, in order. -/
def renderInner (mainTitle : Option (List Char)) (panels : List RPanel) : List Char :=
  (match mainTitle with
   | some mt => jsReplace headerTemplate ("HEADER_TITLE".data) mt
   | none => []) ++ (panels.map renderPanel).flatten

/-- The concrete text of the panel template before `DESCRIPTION_CLASS`. -/
def segA : List Char := "\n\t<div class=\"panel ".data

/-- Template text between `DESCRIPTION_CLASS` and `PANEL_TITLE`. -/
def segB : List Char :=
  "\">\n\t\t<div class=\"header\">\n\t\t\t<div class=\"text\">\n\t\t\t\t<div class=\"title\">".data

/-- Template text between `PANEL_TITLE` and `DESCRIPTION_PLACEHOLDER`. -/
def segC : List Char := "</div>\n\t\t\t\t".data

/-- Template text between `DESCRIPTION_PLACEHOLDER` and `PANEL_CONTENT`. -/
def segD : List Char :=
  "\n\t\t\t</div>\n\t\t\t<div class=\"toggle\">\n\t\t\t\t<i class=\"icon material-icons\">expand_more</i>\n\t\t\t</div>\n\t\t</div>\n\t\t<div class=\"content\">\n\t\t\t<div class=\"content-wrapper\">".data

/-- Template text after `PANEL_CONTENT`. -/
def segE : List Char := "</div>\n\t\t</div>\n\t</div>".data

/-- Description template text before `PANEL_DESCRIPTION`. -/
def descPre : List Char := "<div class=\"description ellipsify\">".data

/-- Description template text after `PANEL_DESCRIPTION`. -/
def descPost : List Char := "</div>".data

/-- The panel template decomposes into the concrete segments around its
placeholder tokens. -/
theorem panelTemplate_decomp :
    panelTemplate =
      segA ++ tokDC ++ segB ++ tokPT ++ segC ++ tokDP ++ segD ++ tokPC ++ segE := by
  decide

/-- The description template decomposes around its placeholder token. -/
theorem descriptionTemplate_decomp :
    descriptionTemplate = descPre ++ tokPD ++ descPost := by
  decide

/-- No occurrence of `pat` starts inside `front ++ (T ++ last)` when
`front` and `last` are occurrence-free concrete zones, `T` is an arbitrary
occurrence-free text and the matched occurrence follows `last`. -/
theorem zones_three (pat front T last s₂ : List Char) (cl : Char)
    (hlast : ∀ t ∈ last.tails, t ≠ [] → ¬ pat <+: (t ++ pat))
    (hheadl : (last ++ (pat ++ s₂)).head? = some cl) (hclpat : cl ∉ pat)
    (hT : ¬ pat <:+: T)
    (hfront1 : ¬ pat <:+: front)
    (hfront2 : ∀ t ∈ front.tails, t ≠ [] → ¬ t <+: pat) :
    ∀ t, t <:+ (front ++ (T ++ last)) → t ≠ [] → ¬ pat <+: (t ++ (pat ++ s₂)) := by
  intro t ht hne
  rcases suffix_append_cases ht with hA | ⟨tf, htf, hnef, rfl⟩
  · rcases suffix_append_cases hA with hB | ⟨tT, htT, hneT, rfl⟩
    · exact zone_concrete pat last s₂ hlast t hB hne
    · intro hpre
      rw [List.append_assoc] at hpre
      exact zone_var pat T (last ++ (pat ++ s₂)) cl hT hheadl hclpat tT htT hneT hpre
  · intro hpre
    simp only [List.append_assoc] at hpre
    exact zone_concrete_far pat front (T ++ (last ++ (pat ++ s₂)))
      hfront1 hfront2 tf htf hnef hpre

/-- No occurrence of `pat` starts inside
`front ++ (T ++ (mid ++ (S ++ last)))` when the concrete zones `front`,
`mid`, `last` are occurrence-free, the arbitrary texts `T` and `S` are
occurrence-free, and the matched occurrence follows `last`. -/
theorem zones_five (pat front T mid S last s₂ : List Char) (cm cl : Char)
    (hlast : ∀ t ∈ last.tails, t ≠ [] → ¬ pat <+: (t ++ pat))
    (hheadl : (last ++ (pat ++ s₂)).head? = some cl) (hclpat : cl ∉ pat)
    (hS : ¬ pat <:+: S)
    (hmid1 : ¬ pat <:+: mid)
    (hmid2 : ∀ t ∈ mid.tails, t ≠ [] → ¬ t <+: pat)
    (hheadm : (mid ++ (S ++ (last ++ (pat ++ s₂)))).head? = some cm) (hcmpat : cm ∉ pat)
    (hT : ¬ pat <:+: T)
    (hfront1 : ¬ pat <:+: front)
    (hfront2 : ∀ t ∈ front.tails, t ≠ [] → ¬ t <+: pat) :
    ∀ t, t <:+ (front ++ (T ++ (mid ++ (S ++ last)))) → t ≠ [] →
      ¬ pat <+: (t ++ (pat ++ s₂)) := by
  intro t ht hne
  rcases suffix_append_cases ht with hA | ⟨tf, htf, hnef, rfl⟩
  · rcases suffix_append_cases hA with hB | ⟨tT, htT, hneT, rfl⟩
    · rcases suffix_append_cases hB with hC | ⟨tm, htm, hnem, rfl⟩
      · rcases suffix_append_cases hC with hD | ⟨tS, htS, hneS, rfl⟩
        · exact zone_concrete pat last s₂ hlast t hD hne
        · intro hpre
          rw [List.append_assoc] at hpre
          exact zone_var pat S (last ++ (pat ++ s₂)) cl hS hheadl hclpat tS htS hneS hpre
      · intro hpre
        simp only [List.append_assoc] at hpre
        exact zone_concrete_far pat mid (S ++ (last ++ (pat ++ s₂)))
          hmid1 hmid2 tm htm hnem hpre
    · intro hpre
      simp only [List.append_assoc] at hpre
      exact zone_var pat T (mid ++ (S ++ (last ++ (pat ++ s₂)))) cm hT hheadm hcmpat
        tT htT hneT hpre
  · intro hpre
    simp only [List.append_assoc] at hpre
    exact zone_concrete_far pat front (T ++ (mid ++ (S ++ (last ++ (pat ++ s₂)))))
      hfront1 hfront2 tf htf hnef hpre

/-- Step 1 of `_renderPanel`: splicing the title into the panel template. -/
theorem jsReplace_title (T : List Char) (hT : dollarChar ∉ T) :
    jsReplace panelTemplate tokPT T =
      (segA ++ tokDC ++ segB) ++ T ++ (segC ++ tokDP ++ segD ++ tokPC ++ segE) := by
  have hsp : splitFirst tokPT panelTemplate =
      some (segA ++ tokDC ++ segB, segC ++ tokDP ++ segD ++ tokPC ++ segE) := by decide
  simp only [jsReplace, hsp]
  rw [getSubstitution_of_not_mem_dollar _ _ _ T hT]

/-- The `DESCRIPTION_CLASS` token is matched at the template position, for
any following text. -/
theorem splitFirst_tokDC (X : List Char) :
    splitFirst tokDC (segA ++ (tokDC ++ X)) = some (segA, X) :=
  splitFirst_eq tokDC X segA (zone_concrete tokDC segA X (by decide))

/-- Step 2 of `_renderPanel`: splicing the description class. -/
theorem jsReplace_descClass (X cls : List Char) (hcls : dollarChar ∉ cls) :
    jsReplace (segA ++ (tokDC ++ X)) tokDC cls = segA ++ (cls ++ X) := by
  simp only [jsReplace, splitFirst_tokDC]
  rw [getSubstitution_of_not_mem_dollar _ _ _ cls hcls]
  simp [List.append_assoc]

/-- The `DESCRIPTION_PLACEHOLDER` token is matched at the template
position: occurrences cannot start in the class-substituted prefix `front`,
the title `T` or the text between title and placeholder. -/
theorem splitFirst_tokDP_gen (front T Y : List Char)
    (hfront1 : ¬ tokDP <:+: front)
    (hfront2 : ∀ t ∈ front.tails, t ≠ [] → ¬ t <+: tokDP)
    (hT : ¬ tokDP <:+: T) :
    splitFirst tokDP ((front ++ (T ++ segC)) ++ (tokDP ++ Y)) =
      some (front ++ (T ++ segC), Y) :=
  splitFirst_eq tokDP Y (front ++ (T ++ segC))
    (zones_three tokDP front T segC Y ('<')
      (by decide) (by rfl) (by decide) hT hfront1 hfront2)

/-- Step 3 of `_renderPanel`: splicing the rendered description block (or
the empty string) at the placeholder. -/
theorem jsReplace_descPlaceholder (front T Y desc : List Char)
    (hfront1 : ¬ tokDP <:+: front)
    (hfront2 : ∀ t ∈ front.tails, t ≠ [] → ¬ t <+: tokDP)
    (hT : ¬ tokDP <:+: T) (hdesc : dollarChar ∉ desc) :
    jsReplace ((front ++ (T ++ segC)) ++ (tokDP ++ Y)) tokDP desc =
      (front ++ (T ++ segC)) ++ (desc ++ Y) := by
  simp only [jsReplace, splitFirst_tokDP_gen front T Y hfront1 hfront2 hT]
  rw [getSubstitution_of_not_mem_dollar _ _ _ desc hdesc]
  rw [List.append_assoc]

/-- The fragment produced for a panel whose description is present and
non-empty: the class slot holds `with-description` and the description
block is spliced at the placeholder. -/
def withShape (t s c : List Char) : List Char :=
  segA ++ withDescriptionClass ++ segB ++ t ++ segC ++
    descPre ++ s ++ descPost ++ segD ++ c ++ segE

/-- The fragment produced for a panel without a (truthy) description: the
class slot and the placeholder both receive the empty string. -/
def withoutShape (t c : List Char) : List Char :=
  segA ++ segB ++ t ++ segC ++ segD ++ c ++ segE

/-- Step 4 of `_renderPanel` in the description branch: the
`PANEL_CONTENT` token is matched at the template position. -/
theorem jsReplace_content_with (T S C : List Char)
    (hT : ¬ tokPC <:+: T) (hS : ¬ tokPC <:+: S) (hC : dollarChar ∉ C) :
    jsReplace
      (((segA ++ (withDescriptionClass ++ segB)) ++
          (T ++ ((segC ++ descPre) ++ (S ++ (descPost ++ segD))))) ++ (tokPC ++ segE))
      tokPC C =
      ((segA ++ (withDescriptionClass ++ segB)) ++
          (T ++ ((segC ++ descPre) ++ (S ++ (descPost ++ segD))))) ++ (C ++ segE) := by
  have hsp :
      splitFirst tokPC
        (((segA ++ (withDescriptionClass ++ segB)) ++
            (T ++ ((segC ++ descPre) ++ (S ++ (descPost ++ segD))))) ++ (tokPC ++ segE)) =
      some ((segA ++ (withDescriptionClass ++ segB)) ++
          (T ++ ((segC ++ descPre) ++ (S ++ (descPost ++ segD)))), segE) :=
    splitFirst_eq tokPC segE _
      (zones_five tokPC (segA ++ (withDescriptionClass ++ segB)) T
        (segC ++ descPre) S (descPost ++ segD) segE ('<') ('<')
        (by decide) (by rfl) (by decide) hS
        (by decide) (by decide) (by rfl) (by decide)
        hT (by decide) (by decide))
  simp only [jsReplace, hsp]
  rw [getSubstitution_of_not_mem_dollar _ _ _ C hC]
  rw [List.append_assoc]

/-- Step 4 of `_renderPanel` in the branch without a description. -/
theorem jsReplace_content_without (T C : List Char)
    (hT : ¬ tokPC <:+: T) (hC : dollarChar ∉ C) :
    jsReplace
      (((segA ++ segB) ++ (T ++ (segC ++ segD))) ++ (tokPC ++ segE)) tokPC C =
      ((segA ++ segB) ++ (T ++ (segC ++ segD))) ++ (C ++ segE) := by
  have hsp :
      splitFirst tokPC (((segA ++ segB) ++ (T ++ (segC ++ segD))) ++ (tokPC ++ segE)) =
      some ((segA ++ segB) ++ (T ++ (segC ++ segD)), segE) :=
    splitFirst_eq tokPC segE _
      (zones_three tokPC (segA ++ segB) T (segC ++ segD) segE ('<')
        (by decide) (by rfl) (by decide) hT (by decide) (by decide))
  simp only [jsReplace, hsp]
  rw [getSubstitution_of_not_mem_dollar _ _ _ C hC]
  rw [List.append_assoc]

/-- Splicing the subtitle into the description template. -/
theorem jsReplace_description (S : List Char) (hS : dollarChar ∉ S) :
    jsReplace descriptionTemplate tokPD S = descPre ++ (S ++ descPost) := by
  have hsp : splitFirst tokPD descriptionTemplate = some (descPre, descPost) := by decide
  simp only [jsReplace, hsp]
  rw [getSubstitution_of_not_mem_dollar _ _ _ S hS]
  rw [List.append_assoc]

/-- Master shape of `_renderPanel` for panels whose texts do not collide
with the placeholder tokens still pending at their insertion point and
contain no dollar character. -/
theorem renderPanel_shape (p : RPanel)
    (hT1 : ¬ tokDP <:+: p.title) (hT2 : ¬ tokPC <:+: p.title)
    (hT3 : dollarChar ∉ p.title)
    (hS1 : ¬ tokPC <:+: p.subtitle.getD []) (hS2 : dollarChar ∉ p.subtitle.getD [])
    (hC : dollarChar ∉ p.content) :
    renderPanel p =
      if truthyStr p.subtitle then withShape p.title (p.subtitle.getD []) p.content
      else withoutShape p.title p.content := by
  have e1 : jsReplace panelTemplate tokPT p.title =
      segA ++ (tokDC ++ (segB ++ (p.title ++ (segC ++ (tokDP ++ (segD ++ (tokPC ++ segE))))))) := by
    rw [jsReplace_title p.title hT3]
    simp only [List.append_assoc]
  cases htr : truthyStr p.subtitle with
  | true =>
    have e2 := jsReplace_descClass
      (segB ++ (p.title ++ (segC ++ (tokDP ++ (segD ++ (tokPC ++ segE))))))
      withDescriptionClass (by decide)
    have e3 := jsReplace_description (p.subtitle.getD []) hS2
    have hsh1 :
        segA ++ (withDescriptionClass ++ (segB ++ (p.title ++ (segC ++ (tokDP ++ (segD ++ (tokPC ++ segE))))))) =
        ((segA ++ (withDescriptionClass ++ segB)) ++ (p.title ++ segC)) ++
          (tokDP ++ (segD ++ (tokPC ++ segE))) := by
      simp only [List.append_assoc]
    have e4 := jsReplace_descPlaceholder (segA ++ (withDescriptionClass ++ segB))
      p.title (segD ++ (tokPC ++ segE)) (descPre ++ (p.subtitle.getD [] ++ descPost))
      (by decide) (by decide) hT1
      (by
        intro hmem
        rcases List.mem_append.mp hmem with hm | hm
        · exact absurd hm (by decide)
        · rcases List.mem_append.mp hm with hm2 | hm2
          · exact hS2 hm2
          · exact absurd hm2 (by decide))
    have hsh2 :
        ((segA ++ (withDescriptionClass ++ segB)) ++ (p.title ++ segC)) ++
          ((descPre ++ (p.subtitle.getD [] ++ descPost)) ++ (segD ++ (tokPC ++ segE))) =
        (((segA ++ (withDescriptionClass ++ segB)) ++
            (p.title ++ ((segC ++ descPre) ++ (p.subtitle.getD [] ++ (descPost ++ segD))))) ++
          (tokPC ++ segE)) := by
      simp only [List.append_assoc]
    have e5 := jsReplace_content_with p.title (p.subtitle.getD []) p.content hT2 hS1 hC
    simp only [renderPanel, if_true]
    rw [e1, if_pos htr, if_pos htr, e2, hsh1, e3, e4, hsh2, e5]
    unfold withShape
    simp only [List.append_assoc]
  | false =>
    have e2 := jsReplace_descClass
      (segB ++ (p.title ++ (segC ++ (tokDP ++ (segD ++ (tokPC ++ segE)))))) [] (by decide)
    have hsh1 :
        segA ++ ([] ++ (segB ++ (p.title ++ (segC ++ (tokDP ++ (segD ++ (tokPC ++ segE))))))) =
        ((segA ++ segB) ++ (p.title ++ segC)) ++ (tokDP ++ (segD ++ (tokPC ++ segE))) := by
      simp only [List.nil_append, List.append_assoc]
    have e4 := jsReplace_descPlaceholder (segA ++ segB)
      p.title (segD ++ (tokPC ++ segE)) [] (by decide) (by decide) hT1 (by decide)
    have hsh2 :
        ((segA ++ segB) ++ (p.title ++ segC)) ++ ([] ++ (segD ++ (tokPC ++ segE))) =
        (((segA ++ segB) ++ (p.title ++ (segC ++ segD))) ++ (tokPC ++ segE)) := by
      simp only [List.nil_append, List.append_assoc]
    have e5 := jsReplace_content_without p.title p.content hT2 hC
    simp only [renderPanel]
    rw [if_neg Bool.false_ne_true]
    have hneg : ¬ truthyStr p.subtitle = true := fun h => Bool.false_ne_true (htr.symm.trans h)
    rw [e1, if_neg hneg, if_neg hneg, e2, hsh1, e4, hsh2, e5]
    unfold withoutShape
    simp only [List.append_assoc]

/-- A marker string does not occur in the fragment of a panel rendered
without a description when it occurs in none of the concrete segments, in
neither text, cannot straddle into text that begins with a bracket and
cannot straddle out of a concrete segment. -/
theorem not_infix_withoutShape (p T C : List Char)
    (hT : ¬ p <:+: T) (hC : ¬ p <:+: C)
    (hA : ¬ p <:+: segA) (hB : ¬ p <:+: segB) (hsC : ¬ p <:+: segC)
    (hD : ¬ p <:+: segD) (hE : ¬ p <:+: segE)
    (hdrop : ∀ k ∈ List.range p.length, k ≠ 0 → ¬ (p.drop k).head? = some ('<'))
    (htakeA : ∀ k ∈ List.range p.length, k ≠ 0 → ¬ (p.take k) <:+ segA)
    (htakeB : ∀ k ∈ List.range p.length, k ≠ 0 → ¬ (p.take k) <:+ segB)
    (htakeC : ∀ k ∈ List.range p.length, k ≠ 0 → ¬ (p.take k) <:+ segC)
    (htakeD : ∀ k ∈ List.range p.length, k ≠ 0 → ¬ (p.take k) <:+ segD) :
    ¬ p <:+: withoutShape T C := by
  unfold withoutShape
  simp only [List.append_assoc]
  refine not_infix_append p _ segA hA ?_ (straddle_blocked_left p segA _ htakeA)
  refine not_infix_append p _ segB hB ?_ (straddle_blocked_left p segB _ htakeB)
  refine not_infix_append p _ T hT ?_ (straddle_blocked_right p T _ ('<') (by rfl) hdrop)
  refine not_infix_append p _ segC hsC ?_ (straddle_blocked_left p segC _ htakeC)
  refine not_infix_append p _ segD hD ?_ (straddle_blocked_left p segD _ htakeD)
  exact not_infix_append p segE C hC hE (straddle_blocked_right p C segE ('<') (by rfl) hdrop)

/-- The `with-description` class marker does not appear anywhere in the
fragment of a panel rendered without a description, provided the texts do
not contain it themselves. -/
theorem marker_not_in_withoutShape (T C : List Char)
    (hT : ¬ withDescriptionClass <:+: T) (hC : ¬ withDescriptionClass <:+: C) :
    ¬ withDescriptionClass <:+: withoutShape T C :=
  not_infix_withoutShape withDescriptionClass T C hT hC
    (by decide) (by decide) (by decide) (by decide) (by decide)
    (by decide) (by decide) (by decide) (by decide) (by decide)

/-- The opening text of a description block does not appear anywhere in the
fragment of a panel rendered without a description, provided the texts do
not contain it themselves. -/
theorem descPre_not_in_withoutShape (T C : List Char)
    (hT : ¬ descPre <:+: T) (hC : ¬ descPre <:+: C) :
    ¬ descPre <:+: withoutShape T C :=
  not_infix_withoutShape descPre T C hT hC
    (by decide) (by decide) (by decide) (by decide) (by decide)
    (by decide) (by decide) (by decide) (by decide) (by decide)

/-! ## Validator and constructor embedding

From `src/unnamed/part_002`: `_validate`, `_setOptions` and the
constructor body, with `isNil` from `src/unnamed/part_001`. A JavaScript
value that is `null` or `undefined` is modelled as `none`; reading a
property of such a value throws a `TypeError`, modelled by
`Except.error`. -/

/-- The optional fields of one entry of the `panels` array. -/
structure PanelFields where
  title : Option String
  subtitle : Option String
  content : Option String
deriving DecidableEq

/-- One entry of the `panels` array: nil (`null`/`undefined`), or an object
with optional fields. -/
inductive PanelElem where
  | nilElem : PanelElem
  | obj (p : PanelFields) : PanelElem
deriving DecidableEq

/-- The `panels` property: a non-array value (`Array.isArray` fails) or an
array of entries. A nil `panels` is `none` at the `OptionsObj` level. -/
inductive PanelsVal where
  | notArray : PanelsVal
  | arr (l : List PanelElem) : PanelsVal
deriving DecidableEq

/-- The options object passed to the constructor (each field nil-able). -/
structure OptionsObj where
  container : Option String
  mainTitle : Option String
  panels : Option PanelsVal
deriving DecidableEq

/-- The `ValidationResult` of the source. -/
structure ValidationResult where
  ok : Bool
  errors : List String
deriving DecidableEq

/-- The message for nil options. -/
def msgOptions : String := "Options must be provided."

/-- The message for a missing required parameter. -/
def msgMissing (mp : String) : String :=
  "The provided options must contain property " ++ mp

/-- The message for a non-array `panels` value. -/
def msgPanelsArray : String := "The panels parameter must be an array of objects"

/-- The message for a missing required panel parameter, with the panel
index. -/
def msgPanel (index : Nat) (mpp : String) : String :=
  "Panel #" ++ toString index ++ " must contain property " ++ mpp

/-- The check `isNil(options[rp])` for the required parameter names. -/
def fieldIsNil (o : OptionsObj) : String → Bool
  | "container" => o.container.isNone
  | "panels" => o.panels.isNone
  | _ => true

/-- The check `isNil(panel[rpp])` for the required panel parameter names. -/
def panelFieldIsNil (p : PanelFields) : String → Bool
  | "title" => p.title.isNone
  | "content" => p.content.isNone
  | _ => true

/-- The required panel parameters missing from a panel, in check order. -/
def missingPanelParams (p : PanelFields) : List String :=
  (["title", "content"].map
    (fun rpp => if panelFieldIsNil p rpp then some rpp else none)).reduceOption

/-- The `forEach` loop over the panels: accumulates the per-panel messages
with indices, and throws (`TypeError`) at the first nil entry, whose
property read fails. -/
def panelErrors : Nat → List PanelElem → Except Unit (List String)
  | _, [] => Except.ok []
  | _, PanelElem.nilElem :: _ => Except.error ()
  | i, PanelElem.obj p :: rest =>
    match panelErrors (i + 1) rest with
    | Except.error e => Except.error e
    | Except.ok tail =>
      Except.ok ((missingPanelParams p).map (fun mpp => msgPanel i mpp) ++ tail)

/-- Embedding of `_validate`: nil options short-circuit; otherwise the
missing required parameters are collected, then the `panels` value is
checked in the same pass when present. -/
def _validate (options : Option OptionsObj) : Except Unit ValidationResult :=
  match options with
  | none => Except.ok { ok := false, errors := [msgOptions] }
  | some o =>
    let errors1 := ((["container", "panels"].map
      (fun rp => if fieldIsNil o rp then some rp else none)).reduceOption).map msgMissing
    match o.panels with
    | none => Except.ok { ok := errors1.length == 0, errors := errors1 }
    | some PanelsVal.notArray =>
      let errors := errors1 ++ [msgPanelsArray]
      Except.ok { ok := errors.length == 0, errors := errors }
    | some (PanelsVal.arr l) =>
      match panelErrors 0 l with
      | Except.error e => Except.error e
      | Except.ok pe =>
        let errors := errors1 ++ pe
        Except.ok { ok := errors.length == 0, errors := errors }

/-- The reduce step of `_setOptions` building the aggregated message (the
accumulator is truthy exactly when non-empty). -/
def foldErr (memo error : String) : String :=
  if memo ≠ "" then (" " ++ memo ++ "\n - " ++ error) else ("- " ++ error)

/-- The aggregated error text of `_setOptions`. -/
def mkErrorsStr (errors : List String) : String := errors.foldl foldErr ("")

/-- The fixed prefix of the aggregated message. -/
def msgHeader : String :=
  "The provided accordion options are not valid. Fix the following errors:"

/-- The full message of the error thrown by `_setOptions`. -/
def mkMessage (errors : List String) : String := msgHeader ++ mkErrorsStr errors

/-- The errors the constructor can raise: the aggregated invalid-options
error from `_setOptions`, or a `TypeError` from a nil property access (a
nil panel entry during validation, or a container id that resolves to no
element in `_render`). -/
inductive ConstructorError where
  | invalidOptions (message : String) : ConstructorError
  | typeError : ConstructorError
deriving DecidableEq

/-- What a successful construction produced: the host id and the
`innerHTML` written into it. -/
structure RenderedAccordion where
  containerId : String
  innerHTML : List Char
deriving DecidableEq

/-- A validated panel entry as consumed by `_renderPanel`. -/
def toRPanel : PanelElem → RPanel
  | PanelElem.nilElem => { title := [], subtitle := none, content := [] }
  | PanelElem.obj p =>
    { title := (p.title.getD ("")).data
      subtitle := p.subtitle.map String.data
      content := (p.content.getD ("")).data }

/-- The panels list of an options object (empty for non-array values;
`_render` is only reached when validation passed). -/
def panelsOf (o : OptionsObj) : List RPanel :=
  match o.panels with
  | some (PanelsVal.arr l) => l.map toRPanel
  | _ => []

/-- Embedding of the constructor: `_setOptions` (validation, aggregated
throw), then `_render` (container lookup and `innerHTML` assembly), then
`_attachListeners` (icon lookup per `panel`-classed element).
`dom` tells which element ids exist in the document; `getElementById` on a
missing id yields `null` and the following property access throws.
`iconsOk` abstracts the outcome of the `_attachListeners` pass on the
parsed `innerHTML`: it holds when every element of class `panel` found by
`getElementsByClassName("panel")` has a descendant of class `icon` (which
is a property of the browser's HTML parse of the trusted, arbitrary
markup spliced into the fragments). The fragments produced by
`_renderPanel` always carry their own icon, but caller-supplied `content`
or `mainTitle` markup can inject an icon-less `panel`-classed element;
then the `.item(0)` icon lookup yields `null` and `addEventListener`
throws a `TypeError`. -/
def construct (dom : String → Bool) (iconsOk : List Char → Bool)
    (options : Option OptionsObj) :
    Except ConstructorError RenderedAccordion :=
  match _validate options with
  | Except.error _ => Except.error ConstructorError.typeError
  | Except.ok r =>
    if r.ok then
      let o := options.getD { container := none, mainTitle := none, panels := none }
      let cid := o.container.getD ("")
      if dom cid then
        let inner := renderInner (o.mainTitle.map String.data) (panelsOf o)
        if iconsOk inner then
          Except.ok { containerId := cid, innerHTML := inner }
        else Except.error ConstructorError.typeError
      else Except.error ConstructorError.typeError
    else Except.error (ConstructorError.invalidOptions (mkMessage r.errors))

/-! ## Panel state machine embedding

From `src/unnamed/part_002`: `_attachListeners`, `_closeOpenPanel`,
`_isOpen`, `_togglePanel`, `_openPanel`, `_closePanel`, with `assert`
from `src/unnamed/part_001`. A panel is modelled by its class token list
(`classList`) and the inline height of its content region; the measured
natural height of the content wrapper is a fixed per-panel quantity. The
`setTimeout` callback that strips the `transitioning` marker after the CSS
transition is modelled as a separate `settle` event. -/

/-- The DOM state of one panel element: class tokens, the inline height of
its `.content` region (`none` = no inline style, as in the freshly
rendered markup), and the measured natural height of its content. -/
structure PanelState where
  classes : List String
  contentHeight : Option Nat
  naturalHeight : Nat
deriving DecidableEq

/-- Embedding of `classList.add`: appends the token when absent. -/
def addClass (cs : List String) (c : String) : List String :=
  if c ∈ cs then cs else cs ++ [c]

/-- Embedding of `classList.remove`: removes the token. -/
def removeClass (cs : List String) (c : String) : List String :=
  cs.filter (fun x => x ≠ c)

/-- Embedding of `_isOpen`: `classList.contains("open")`. -/
def IsOpenP (p : PanelState) : Prop := "open" ∈ p.classes

instance (p : PanelState) : Decidable (IsOpenP p) := by
  unfold IsOpenP
  infer_instance

/-- Effect of `_openPanel` on the panel element (early return when already open):
adds `open` and `transitioning`, sets the content height to the measured
natural height. -/
def openPanelState (p : PanelState) : PanelState :=
  if IsOpenP p then p
  else
    { p with
      classes := addClass (addClass p.classes ("open")) ("transitioning")
      contentHeight := some p.naturalHeight }

/-- Effect of `_closePanel` on the panel element (early return when not open): adds
`transitioning`, removes `open`, sets the content height to `0`. -/
def closePanelState (p : PanelState) : PanelState :=
  if IsOpenP p then
    { p with
      classes := removeClass (addClass p.classes ("transitioning")) ("open")
      contentHeight := some 0 }
  else p

/-- The `setTimeout` callback of `_openPanel`/`_closePanel`: removes the
`transitioning` marker. -/
def settlePanelState (p : PanelState) : PanelState :=
  { p with classes := removeClass p.classes ("transitioning") }

/-- Pointwise update of a panel list. -/
def updAt : List PanelState → Nat → (PanelState → PanelState) → List PanelState
  | [], _, _ => []
  | x :: xs, 0, f => f x :: xs
  | x :: xs, n + 1, f => x :: updAt xs n f

/-- The state of the whole accordion: the panel elements and the
`_openedPanel` bookkeeping reference (an index, or `none`). -/
structure AccordionState where
  panels : List PanelState
  openedPanel : Option Nat
deriving DecidableEq

/-- Placeholder panel for out-of-range reads (never open). -/
def dummyPanel : PanelState :=
  { classes := [], contentHeight := none, naturalHeight := 0 }

/-- The panel element at index `i`. -/
def getPanel (s : AccordionState) (i : Nat) : PanelState :=
  s.panels.getD i dummyPanel

/-- Embedding of `_closeOpenPanel`: closes the recorded open panel, if any, and clears
the reference. -/
def closeOpenPanelA (s : AccordionState) : AccordionState :=
  match s.openedPanel with
  | none => s
  | some j => { panels := updAt s.panels j closePanelState, openedPanel := none }

/-- Effect of `_openPanel` at the accordion level: early return when the panel is
already open (the reference is then left unchanged); otherwise the panel
element is opened and recorded. -/
def openPanelA (s : AccordionState) (i : Nat) : AccordionState :=
  if IsOpenP (getPanel s i) then s
  else { panels := updAt s.panels i openPanelState, openedPanel := some i }

/-- Embedding of `_togglePanel` with its `assert`: an open panel must be the recorded
open panel (else the assert throws); it is then closed. A closed panel
causes the open one to close first, then opens. -/
def togglePanelE (s : AccordionState) (i : Nat) : Except Unit AccordionState :=
  if IsOpenP (getPanel s i) then
    if s.openedPanel = some i then Except.ok (closeOpenPanelA s)
    else Except.error ()
  else Except.ok (openPanelA (closeOpenPanelA s) i)

/-- The observable events: a click on the toggle of panel `i` (only panels
of the accordion have listeners), and the transition-end timer of panel
`i`. -/
inductive Event where
  | click (i : Nat) : Event
  | settle (i : Nat) : Event
deriving DecidableEq

/-- One event step. -/
def stepE (s : AccordionState) : Event → Except Unit AccordionState
  | Event.click i => if i < s.panels.length then togglePanelE s i else Except.ok s
  | Event.settle i =>
    Except.ok { s with panels := updAt s.panels i settlePanelState }

/-- Run a sequence of events, propagating an assertion failure. -/
def runE : AccordionState → List Event → Except Unit AccordionState
  | s, [] => Except.ok s
  | s, e :: rest =>
    match stepE s e with
    | Except.error u => Except.error u
    | Except.ok s' => runE s' rest

/-- The rendered configuration of one panel: whether it has a description
(which only changes its class list) and its measured content height. -/
structure PanelInit where
  withDesc : Bool
  naturalHeight : Nat

/-- A freshly rendered panel element: closed, no inline height. -/
def initPanel (pi : PanelInit) : PanelState :=
  { classes := if pi.withDesc then ["panel", "with-description"] else ["panel"]
    contentHeight := none
    naturalHeight := pi.naturalHeight }

/-- The accordion state right after `_render` and `_attachListeners`:
every panel closed, no recorded open panel. -/
def initState (ps : List PanelInit) : AccordionState :=
  { panels := ps.map initPanel, openedPanel := none }

/-- The number of panels whose DOM reports `open`. -/
def countOpen (s : AccordionState) : Nat :=
  (s.panels.filter (fun p => decide (IsOpenP p))).length

/-- The inductive invariant: the bookkeeping reference is accurate — when
it is `none` every panel is closed, and when it is `some j` exactly the
panel `j` is open. -/
def Inv (s : AccordionState) : Prop :=
  match s.openedPanel with
  | none => ∀ i, i < s.panels.length → ¬ IsOpenP (getPanel s i)
  | some j =>
    j < s.panels.length ∧ IsOpenP (getPanel s j) ∧
      ∀ i, i < s.panels.length → i ≠ j → ¬ IsOpenP (getPanel s i)

theorem updAt_length : ∀ (l : List PanelState) (i : Nat) (f : PanelState → PanelState),
    (updAt l i f).length = l.length
  | [], _, _ => rfl
  | _ :: _, 0, _ => rfl
  | x :: xs, n + 1, f => by simp [updAt, updAt_length xs n f]

theorem updAt_ge : ∀ (l : List PanelState) (i : Nat) (f : PanelState → PanelState),
    l.length ≤ i → updAt l i f = l
  | [], _, _, _ => rfl
  | x :: xs, 0, f, h => by simp at h
  | x :: xs, n + 1, f, h => by
    simp only [updAt]
    rw [updAt_ge xs n f (by simpa using Nat.le_of_succ_le_succ h)]

theorem getD_updAt_eq : ∀ (l : List PanelState) (i : Nat) (f : PanelState → PanelState),
    i < l.length → (updAt l i f).getD i dummyPanel = f (l.getD i dummyPanel)
  | [], i, _, h => by simp at h
  | _ :: _, 0, _, _ => rfl
  | x :: xs, n + 1, f, h =>
    getD_updAt_eq xs n f (Nat.lt_of_succ_lt_succ (by simpa using h))

theorem getD_updAt_ne : ∀ (l : List PanelState) (i j : Nat) (f : PanelState → PanelState),
    i ≠ j → (updAt l j f).getD i dummyPanel = l.getD i dummyPanel
  | [], _, _, _, _ => by simp [updAt]
  | x :: xs, i, 0, f, hne => by
    cases i with
    | zero => exact absurd rfl hne
    | succ n => rfl
  | x :: xs, 0, j + 1, f, _ => rfl
  | x :: xs, i + 1, j + 1, f, hne =>
    getD_updAt_ne xs i j f (fun h => hne (by rw [h]))

theorem closePanelState_not_open (p : PanelState) : ¬ IsOpenP (closePanelState p) := by
  by_cases h : IsOpenP p
  · unfold closePanelState
    rw [if_pos h]
    unfold IsOpenP removeClass
    simp
  · unfold closePanelState
    rw [if_neg h]
    exact h

theorem closePanelState_height (p : PanelState) (h : IsOpenP p) :
    (closePanelState p).contentHeight = some 0 := by
  unfold closePanelState
  rw [if_pos h]

theorem openPanelState_open (p : PanelState) : IsOpenP (openPanelState p) := by
  by_cases h : IsOpenP p
  · unfold openPanelState
    rwa [if_pos h]
  · unfold openPanelState
    rw [if_neg h]
    unfold IsOpenP addClass at *
    split_ifs <;> simp_all

theorem settle_open_iff (p : PanelState) :
    IsOpenP (settlePanelState p) ↔ IsOpenP p := by
  unfold settlePanelState IsOpenP removeClass
  simp [List.mem_filter]

/-- A state with no recorded open panel and every panel closed satisfies
the invariant. -/
theorem inv_of_none (s : AccordionState) (h1 : s.openedPanel = none)
    (h2 : ∀ i, i < s.panels.length → ¬ IsOpenP (getPanel s i)) : Inv s := by
  unfold Inv
  rw [h1]
  exact h2

/-- Running `_closeOpenPanel` under the invariant: the reference is cleared, the
panel count is unchanged, and every panel ends closed. -/
theorem closeOpenPanelA_none (s : AccordionState) (hop : s.openedPanel = none) :
    closeOpenPanelA s = s := by
  unfold closeOpenPanelA
  rw [hop]

theorem closeOpenPanelA_some (s : AccordionState) (j : Nat)
    (hop : s.openedPanel = some j) :
    closeOpenPanelA s =
      { panels := updAt s.panels j closePanelState, openedPanel := none } := by
  unfold closeOpenPanelA
  rw [hop]

theorem closeOpenPanelA_spec (s : AccordionState) (h : Inv s) :
    (closeOpenPanelA s).openedPanel = none ∧
    (closeOpenPanelA s).panels.length = s.panels.length ∧
    ∀ i, i < s.panels.length → ¬ IsOpenP (getPanel (closeOpenPanelA s) i) := by
  unfold Inv at h
  cases hop : s.openedPanel with
  | none =>
    rw [hop] at h
    rw [closeOpenPanelA_none s hop]
    exact ⟨hop, rfl, h⟩
  | some j =>
    rw [hop] at h
    obtain ⟨hj, _, hothers⟩ := h
    rw [closeOpenPanelA_some s j hop]
    refine ⟨rfl, updAt_length _ _ _, ?_⟩
    intro i hi
    show ¬ IsOpenP ((updAt s.panels j closePanelState).getD i dummyPanel)
    by_cases hij : i = j
    · subst hij
      rw [getD_updAt_eq _ _ _ hi]
      exact closePanelState_not_open _
    · rw [getD_updAt_ne _ _ _ _ hij]
      exact hothers i hi hij

theorem closeOpenPanelA_inv (s : AccordionState) (h : Inv s) :
    Inv (closeOpenPanelA s) := by
  obtain ⟨h1, h2, h3⟩ := closeOpenPanelA_spec s h
  exact inv_of_none _ h1 (fun i hi => h3 i (by rw [← h2]; exact hi))

/-- Under the invariant, a panel whose DOM reports `open` is the recorded
open panel. -/
theorem open_eq_recorded (s : AccordionState) (h : Inv s) (i : Nat)
    (hi : i < s.panels.length) (hopen : IsOpenP (getPanel s i)) :
    s.openedPanel = some i := by
  unfold Inv at h
  cases hop : s.openedPanel with
  | none =>
    rw [hop] at h
    exact absurd hopen (h i hi)
  | some j =>
    rw [hop] at h
    obtain ⟨_, _, hothers⟩ := h
    by_cases hij : i = j
    · rw [hij]
    · exact absurd hopen (hothers i hi hij)

/-- One step never fails and preserves the invariant. -/
theorem stepE_preserves (s : AccordionState) (e : Event) (h : Inv s) :
    ∃ s', stepE s e = Except.ok s' ∧ Inv s' := by
  cases e with
  | settle k =>
    refine ⟨_, rfl, ?_⟩
    set s' : AccordionState :=
      { s with panels := updAt s.panels k settlePanelState } with hs'
    have hlen : s'.panels.length = s.panels.length := updAt_length _ _ _
    have hiff : ∀ i, i < s.panels.length →
        (IsOpenP (getPanel s' i) ↔ IsOpenP (getPanel s i)) := by
      intro i hi
      by_cases hik : i = k
      · subst hik
        show IsOpenP ((updAt s.panels i settlePanelState).getD i dummyPanel) ↔ _
        rw [getD_updAt_eq _ _ _ hi]
        exact settle_open_iff _
      · show IsOpenP ((updAt s.panels k settlePanelState).getD i dummyPanel) ↔ _
        rw [getD_updAt_ne _ _ _ _ hik]
        exact Iff.rfl
    unfold Inv at h ⊢
    show (match s'.openedPanel with
      | none => ∀ i, i < s'.panels.length → ¬ IsOpenP (getPanel s' i)
      | some j => j < s'.panels.length ∧ IsOpenP (getPanel s' j) ∧
          ∀ i, i < s'.panels.length → i ≠ j → ¬ IsOpenP (getPanel s' i))
    have hop : s'.openedPanel = s.openedPanel := rfl
    rw [hop]
    cases hcase : s.openedPanel with
    | none =>
      rw [hcase] at h
      intro i hi
      rw [hlen] at hi
      rw [hiff i hi]
      exact h i hi
    | some j =>
      rw [hcase] at h
      obtain ⟨hj, ho, hothers⟩ := h
      refine ⟨by rw [hlen]; exact hj, (hiff j hj).mpr ho, ?_⟩
      intro i hi hij
      rw [hlen] at hi
      rw [hiff i hi]
      exact hothers i hi hij
  | click i =>
    by_cases hilen : i < s.panels.length
    · by_cases hopen : IsOpenP (getPanel s i)
      · have hsome : s.openedPanel = some i := open_eq_recorded s h i hilen hopen
        refine ⟨closeOpenPanelA s, ?_, closeOpenPanelA_inv s h⟩
        simp [stepE, if_pos hilen, togglePanelE, if_pos hopen, hsome]
      · obtain ⟨hm1, hm2, hm3⟩ := closeOpenPanelA_spec s h
        have hmclosed : ¬ IsOpenP (getPanel (closeOpenPanelA s) i) := hm3 i hilen
        refine ⟨openPanelA (closeOpenPanelA s) i, ?_, ?_⟩
        · simp [stepE, if_pos hilen, togglePanelE, if_neg hopen]
        · unfold openPanelA
          rw [if_neg hmclosed]
          unfold Inv
          refine ⟨?_, ?_, ?_⟩
          · show i < (updAt (closeOpenPanelA s).panels i openPanelState).length
            rw [updAt_length, hm2]
            exact hilen
          · show IsOpenP ((updAt (closeOpenPanelA s).panels i openPanelState).getD i dummyPanel)
            rw [getD_updAt_eq _ _ _ (by rw [hm2]; exact hilen)]
            exact openPanelState_open _
          · intro k hk hki
            show ¬ IsOpenP ((updAt (closeOpenPanelA s).panels i openPanelState).getD k dummyPanel)
            rw [getD_updAt_ne _ _ _ _ hki]
            rw [updAt_length, hm2] at hk
            exact hm3 k hk
    · exact ⟨s, by simp [stepE, if_neg hilen], h⟩

/-- Running events from an invariant state never fails and preserves the
invariant. -/
theorem runE_ok_inv : ∀ (evts : List Event) (s : AccordionState), Inv s →
    ∃ s', runE s evts = Except.ok s' ∧ Inv s'
  | [], s, h => ⟨s, rfl, h⟩
  | e :: rest, s, h => by
    obtain ⟨s1, hs1, hinv1⟩ := stepE_preserves s e h
    obtain ⟨s', hs', hinv'⟩ := runE_ok_inv rest s1 hinv1
    exact ⟨s', by simp [runE, hs1, hs'], hinv'⟩

/-- The freshly rendered accordion satisfies the invariant. -/
theorem initState_inv (ps : List PanelInit) : Inv (initState ps) := by
  apply inv_of_none _ rfl
  intro i hi
  show ¬ IsOpenP ((ps.map initPanel).getD i dummyPanel)
  simp only [initState, List.length_map] at hi
  rw [List.getD_eq_getElem _ _ (by simpa using hi)]
  simp only [List.getElem_map]
  unfold initPanel IsOpenP
  split_ifs <;> simp

/-- Any state reached from an invariant state satisfies the invariant, and
the run does not fail. -/
theorem runE_inv_of_ok (evts : List Event) (s s' : AccordionState) (h : Inv s)
    (hrun : runE s evts = Except.ok s') : Inv s' := by
  obtain ⟨s'', hs'', hinv''⟩ := runE_ok_inv evts s h
  rw [hrun] at hs''
  cases hs''
  exact hinv''

theorem filter_open_nil : ∀ l : List PanelState,
    (∀ i, i < l.length → ¬ IsOpenP (l.getD i dummyPanel)) →
    l.filter (fun p => decide (IsOpenP p)) = []
  | [], _ => rfl
  | x :: xs, h => by
    have hx : ¬ IsOpenP x := h 0 (by simp)
    have hxs : ∀ i, i < xs.length → ¬ IsOpenP (xs.getD i dummyPanel) := by
      intro i hi
      have := h (i + 1) (by simpa using Nat.succ_lt_succ hi)
      simpa using this
    simp only [List.filter_cons]
    rw [if_neg (by simpa using hx)]
    exact filter_open_nil xs hxs

theorem countOpen_single : ∀ (l : List PanelState) (j : Nat), j < l.length →
    (∀ i, i < l.length → i ≠ j → ¬ IsOpenP (l.getD i dummyPanel)) →
    (l.filter (fun p => decide (IsOpenP p))).length ≤ 1
  | [], j, h, _ => by simp at h
  | x :: xs, 0, _, hothers => by
    have hxs : ∀ i, i < xs.length → ¬ IsOpenP (xs.getD i dummyPanel) := by
      intro i hi
      have := hothers (i + 1) (by simpa using Nat.succ_lt_succ hi) (by simp)
      simpa using this
    simp only [List.filter_cons]
    split
    · simp [filter_open_nil xs hxs]
    · simp [filter_open_nil xs hxs]
  | x :: xs, j + 1, hj, hothers => by
    have hx : ¬ IsOpenP x := by
      have := hothers 0 (by simp) (by simp)
      simpa using this
    have hxs : ∀ i, i < xs.length → i ≠ j → ¬ IsOpenP (xs.getD i dummyPanel) := by
      intro i hi hij
      have := hothers (i + 1) (by simpa using Nat.succ_lt_succ hi) (by simpa using hij)
      simpa using this
    simp only [List.filter_cons]
    rw [if_neg (by simpa using hx)]
    exact countOpen_single xs j (by simpa using Nat.lt_of_succ_lt_succ hj) hxs

/-- Under the invariant, at most one panel reports `open`. -/
theorem countOpen_le_one (s : AccordionState) (h : Inv s) : countOpen s ≤ 1 := by
  unfold countOpen
  unfold Inv at h
  cases hop : s.openedPanel with
  | none =>
    rw [hop] at h
    rw [filter_open_nil s.panels h]
    simp
  | some j =>
    rw [hop] at h
    exact countOpen_single s.panels j h.1 (fun i hi hij => h.2.2 i hi hij)

/-- Right after `_closeOpenPanel`, no panel reports `open` at all: the
instant between closing the open panel and opening the clicked one. -/
theorem countOpen_closeOpen (s : AccordionState) (h : Inv s) :
    countOpen (closeOpenPanelA s) = 0 := by
  obtain ⟨_, h2, h3⟩ := closeOpenPanelA_spec s h
  unfold countOpen
  rw [filter_open_nil _ (fun i hi => h3 i (by rw [← h2]; exact hi))]
  rfl

/-! ## Validator lemmas -/

/-- The missing-required-parameter messages of `_validate`. -/
def missingMsgs (o : OptionsObj) : List String :=
  ((["container", "panels"].map
    (fun rp => if fieldIsNil o rp then some rp else none)).reduceOption).map msgMissing

/-- Panels arrays free of nil entries (property reads cannot throw). -/
def NoNilPanels : Option OptionsObj → Prop
  | none => True
  | some o => ∀ l, o.panels = some (PanelsVal.arr l) → PanelElem.nilElem ∉ l

theorem panelErrors_ok : ∀ (l : List PanelElem) (i : Nat), PanelElem.nilElem ∉ l →
    ∃ pe, panelErrors i l = Except.ok pe
  | [], _, _ => ⟨[], rfl⟩
  | PanelElem.nilElem :: _, _, h => absurd (by simp) h
  | PanelElem.obj p :: rest, i, h => by
    obtain ⟨pe, hpe⟩ := panelErrors_ok rest (i + 1) (fun hm => h (List.mem_cons_of_mem _ hm))
    exact ⟨(missingPanelParams p).map (fun mpp => msgPanel i mpp) ++ pe,
      by simp [panelErrors, hpe]⟩

theorem panelErrors_mem : ∀ (l : List PanelElem) (i0 j : Nat) (p : PanelFields)
    (pe : List String),
    panelErrors i0 l = Except.ok pe → l.get? j = some (PanelElem.obj p) →
    ∀ mpp ∈ missingPanelParams p, msgPanel (i0 + j) mpp ∈ pe
  | [], _, j, _, _, _, hg => by simp at hg
  | PanelElem.nilElem :: _, _, _, _, _, h, _ => by simp [panelErrors] at h
  | PanelElem.obj q :: rest, i0, j, p, pe, h, hg => by
    cases hrest : panelErrors (i0 + 1) rest with
    | error e => simp [panelErrors, hrest] at h
    | ok tail =>
      simp only [panelErrors, hrest] at h
      cases j with
      | zero =>
        simp only [List.get?_cons_zero, Option.some.injEq, PanelElem.obj.injEq] at hg
        subst hg
        intro mpp hm
        rw [Nat.add_zero]
        simp only [Except.ok.injEq] at h
        rw [← h]
        exact List.mem_append_left _ (List.mem_map_of_mem _ hm)
      | succ n =>
        intro mpp hm
        simp only [Except.ok.injEq] at h
        rw [← h]
        apply List.mem_append_right
        have := panelErrors_mem rest (i0 + 1) n p tail hrest (by simpa using hg) mpp hm
        have harith : i0 + 1 + n = i0 + (n + 1) := by omega
        rwa [harith] at this

theorem mem_missing_title (p : PanelFields) (h : p.title = none) :
    "title" ∈ missingPanelParams p := by
  unfold missingPanelParams panelFieldIsNil
  simp [h, List.reduceOption]

theorem mem_missing_content (p : PanelFields) (h : p.content = none) :
    "content" ∈ missingPanelParams p := by
  unfold missingPanelParams panelFieldIsNil
  rcases hp : p.title with _ | t <;> simp [h, hp, List.reduceOption]

theorem mem_missingMsgs_container (o : OptionsObj) (h : o.container = none) :
    msgMissing ("container") ∈ missingMsgs o := by
  unfold missingMsgs fieldIsNil
  simp [h, List.reduceOption]

theorem mem_missingMsgs_panels (o : OptionsObj) (h : o.panels = none) :
    msgMissing ("panels") ∈ missingMsgs o := by
  unfold missingMsgs fieldIsNil
  rcases hc : o.container with _ | c <;> simp [h, hc, List.reduceOption]

/-- Computation of `_validate` on a non-nil options object, by the shape of
its `panels` value. -/
theorem validate_some_none (o : OptionsObj) (hp : o.panels = none) :
    _validate (some o) =
      Except.ok { ok := (missingMsgs o).length == 0, errors := missingMsgs o } := by
  simp only [_validate, missingMsgs, hp]

theorem validate_some_notArray (o : OptionsObj) (hp : o.panels = some PanelsVal.notArray) :
    _validate (some o) =
      Except.ok
        { ok := (missingMsgs o ++ [msgPanelsArray]).length == 0
          errors := missingMsgs o ++ [msgPanelsArray] } := by
  simp only [_validate, missingMsgs, hp]

theorem validate_some_arr (o : OptionsObj) (l : List PanelElem) (pe : List String)
    (hp : o.panels = some (PanelsVal.arr l)) (hpe : panelErrors 0 l = Except.ok pe) :
    _validate (some o) =
      Except.ok { ok := (missingMsgs o ++ pe).length == 0, errors := missingMsgs o ++ pe } := by
  simp only [_validate, missingMsgs, hp, hpe]

theorem validate_some_arr_error (o : OptionsObj) (l : List PanelElem)
    (hp : o.panels = some (PanelsVal.arr l)) (hpe : panelErrors 0 l = Except.error ()) :
    _validate (some o) = Except.error () := by
  simp only [_validate, hp, hpe]

/-- The `ok` flag of every returned result is the emptiness of its error
list. -/
theorem validate_ok_iff (opts : Option OptionsObj) (r : ValidationResult)
    (h : _validate opts = Except.ok r) : r.ok = true ↔ r.errors = [] := by
  cases opts with
  | none =>
    simp only [_validate, Except.ok.injEq] at h
    rw [← h]
    simp [msgOptions]
  | some o =>
    rcases hp : o.panels with _ | pv
    · rw [validate_some_none o hp] at h
      simp only [Except.ok.injEq] at h
      rw [← h]
      simp [List.length_eq_zero]
    · cases pv with
      | notArray =>
        rw [validate_some_notArray o hp] at h
        simp only [Except.ok.injEq] at h
        rw [← h]
        simp [List.length_eq_zero]
      | arr l =>
        cases hpe : panelErrors 0 l with
        | error e =>
          cases e
          rw [validate_some_arr_error o l hp hpe] at h
          simp at h
        | ok pe =>
          rw [validate_some_arr o l pe hp hpe] at h
          simp only [Except.ok.injEq] at h
          rw [← h]
          simp [List.length_eq_zero]

/-! ## Constructor message lemmas -/

/-- A run of `n` space characters (the fold of `_setOptions` prepends one space per
extra error). -/
def spacesStr (n : Nat) : String := String.mk (List.replicate n (' '))

/-- One further line per remaining error. -/
def tailLines : List String → String
  | [] => ""
  | e :: rest => "\n - " ++ e ++ tailLines rest

theorem foldErr_of_ne (memo e : String) (h : memo ≠ "") :
    foldErr memo e = " " ++ memo ++ "\n - " ++ e := by
  unfold foldErr
  rw [if_pos h]

theorem foldl_foldErr : ∀ (rest : List String) (memo : String), memo ≠ "" →
    List.foldl foldErr memo rest = spacesStr rest.length ++ memo ++ tailLines rest
  | [], memo, _ => by
    apply String.ext
    simp [spacesStr, tailLines, String.data_append]
  | e :: rest, memo, h => by
    have hne : foldErr memo e ≠ "" := by
      rw [foldErr_of_ne memo e h]
      intro hc
      have := congrArg String.data hc
      simp [String.data_append] at this
    simp only [List.foldl_cons]
    rw [foldl_foldErr rest (foldErr memo e) hne]
    rw [foldErr_of_ne memo e h]
    apply String.ext
    simp [spacesStr, tailLines, String.data_append, List.replicate_succ',
      List.append_assoc]

theorem mkMessage_eq (e : String) (es : List String) :
    mkMessage (e :: es) =
      msgHeader ++ spacesStr es.length ++ "- " ++ e ++ tailLines es := by
  unfold mkMessage mkErrorsStr
  simp only [List.foldl_cons]
  have h0 : foldErr ("") e = "- " ++ e := by
    unfold foldErr
    simp
  rw [h0]
  have hne : ("- " ++ e : String) ≠ "" := by
    intro hc
    have := congrArg String.data hc
    simp [String.data_append] at this
  rw [foldl_foldErr es ("- " ++ e) hne]
  apply String.ext
  simp [String.data_append, List.append_assoc]

/-- Effect of `_setOptions` on a failed validation: the single aggregated
error, before `_render` or `_attachListeners` run. -/
theorem construct_invalid (dom : String → Bool) (iconsOk : List Char → Bool)
    (opts : Option OptionsObj)
    (r : ValidationResult) (hv : _validate opts = Except.ok r) (hok : r.ok = false) :
    construct dom iconsOk opts =
      Except.error (ConstructorError.invalidOptions (mkMessage r.errors)) := by
  unfold construct
  rw [hv]
  simp [hok]

/-- A successful validation with an existing container element and a
listener pass that finds an icon in every `panel`-classed element
renders and attaches without throwing. -/
theorem construct_ok (dom : String → Bool) (iconsOk : List Char → Bool)
    (opts : Option OptionsObj)
    (r : ValidationResult) (hv : _validate opts = Except.ok r) (hok : r.ok = true)
    (hdom : dom ((opts.getD
      { container := none, mainTitle := none, panels := none }).container.getD ("")) = true)
    (hicons : iconsOk (renderInner
      ((opts.getD { container := none, mainTitle := none, panels := none }).mainTitle.map String.data)
      (panelsOf (opts.getD { container := none, mainTitle := none, panels := none }))) = true) :
    ∃ out, construct dom iconsOk opts = Except.ok out := by
  unfold construct
  rw [hv]
  simp [hok, hdom, hicons]

/-- A successful validation with a missing container element: `_render`
throws a `TypeError` on the nil `getElementById` result. -/
theorem construct_missing_container (dom : String → Bool) (iconsOk : List Char → Bool)
    (opts : Option OptionsObj)
    (r : ValidationResult) (hv : _validate opts = Except.ok r) (hok : r.ok = true)
    (hdom : dom ((opts.getD
      { container := none, mainTitle := none, panels := none }).container.getD ("")) = false) :
    construct dom iconsOk opts = Except.error ConstructorError.typeError := by
  unfold construct
  rw [hv]
  simp [hok, hdom]

/-- A successful validation and an existing container, but injected markup
that yields an icon-less `panel`-classed element: `_attachListeners`
throws a `TypeError` on the nil icon lookup. -/
theorem construct_missing_icon (dom : String → Bool) (iconsOk : List Char → Bool)
    (opts : Option OptionsObj)
    (r : ValidationResult) (hv : _validate opts = Except.ok r) (hok : r.ok = true)
    (hdom : dom ((opts.getD
      { container := none, mainTitle := none, panels := none }).container.getD ("")) = true)
    (hicons : iconsOk (renderInner
      ((opts.getD { container := none, mainTitle := none, panels := none }).mainTitle.map String.data)
      (panelsOf (opts.getD { container := none, mainTitle := none, panels := none }))) = false) :
    construct dom iconsOk opts = Except.error ConstructorError.typeError := by
  unfold construct
  rw [hv]
  simp [hok, hdom, hicons]

/-! ## Claim theorems -/

/-- C1: at-most-one-open invariant. Starting from the initial state in
which every panel is closed, after any sequence of toggle clicks (and
transition-end timers) at most one panel carries the `open` flag; and at
the observable instant inside a click just after `_closeOpenPanel` ran —
between closing the previously open panel A and opening the clicked panel
B — no panel is open at all, so two panels are never simultaneously
open. -/
theorem c1_at_most_one_open (ps : List PanelInit) (evts : List Event)
    (s : AccordionState) (h : runE (initState ps) evts = Except.ok s) :
    countOpen s ≤ 1 ∧ countOpen (closeOpenPanelA s) = 0 := by
  have hinv := runE_inv_of_ok evts (initState ps) s (initState_inv ps) h
  exact ⟨countOpen_le_one s hinv, countOpen_closeOpen s hinv⟩

/-- Witness for C1: two panels, open panel 0, then click panel 1. -/
theorem c1_witness :
    countOpen
      { panels := [
          { classes := ["panel", "transitioning"], contentHeight := some 0,
            naturalHeight := 5 },
          { classes := ["panel", "open", "transitioning"], contentHeight := some 7,
            naturalHeight := 7 }]
        openedPanel := some 1 } ≤ 1 ∧
    countOpen (closeOpenPanelA
      { panels := [
          { classes := ["panel", "transitioning"], contentHeight := some 0,
            naturalHeight := 5 },
          { classes := ["panel", "open", "transitioning"], contentHeight := some 7,
            naturalHeight := 7 }]
        openedPanel := some 1 }) = 0 :=
  c1_at_most_one_open [⟨false, 5⟩, ⟨false, 7⟩] [Event.click 0, Event.click 1] _
    (by rfl)

/-- C8: clicking the toggle of the currently open panel closes it rather
than being a no-op: the step succeeds and produces the `_closeOpenPanel`
result, in which the recorded open panel is cleared, the clicked panel no
longer carries `open`, and its content height is reset to the collapsed
value `0`. -/
theorem c8_click_open_closes (ps : List PanelInit) (evts : List Event)
    (s : AccordionState) (i : Nat)
    (hrun : runE (initState ps) evts = Except.ok s)
    (hop : s.openedPanel = some i) :
    stepE s (Event.click i) = Except.ok (closeOpenPanelA s) ∧
    (closeOpenPanelA s).openedPanel = none ∧
    ¬ IsOpenP (getPanel (closeOpenPanelA s) i) ∧
    (getPanel (closeOpenPanelA s) i).contentHeight = some 0 := by
  have hinv := runE_inv_of_ok evts _ s (initState_inv ps) hrun
  have hinv' := hinv
  unfold Inv at hinv'
  rw [hop] at hinv'
  obtain ⟨hilen, hopen, _⟩ := hinv'
  obtain ⟨hm1, _, hm3⟩ := closeOpenPanelA_spec s hinv
  refine ⟨?_, hm1, hm3 i hilen, ?_⟩
  · simp [stepE, if_pos hilen, togglePanelE, if_pos hopen, hop]
  · rw [closeOpenPanelA_some s i hop]
    show ((updAt s.panels i closePanelState).getD i dummyPanel).contentHeight = some 0
    rw [getD_updAt_eq _ _ _ hilen]
    exact closePanelState_height _ hopen

/-- Witness for C8: one panel, opened by a first click, then clicked
again. -/
theorem c8_witness :
    stepE
      { panels := [
          { classes := ["panel", "open", "transitioning"], contentHeight := some 5,
            naturalHeight := 5 }]
        openedPanel := some 0 } (Event.click 0) =
      Except.ok (closeOpenPanelA
        { panels := [
            { classes := ["panel", "open", "transitioning"], contentHeight := some 5,
              naturalHeight := 5 }]
          openedPanel := some 0 }) ∧
    (closeOpenPanelA
      { panels := [
          { classes := ["panel", "open", "transitioning"], contentHeight := some 5,
            naturalHeight := 5 }]
        openedPanel := some 0 }).openedPanel = none ∧
    ¬ IsOpenP (getPanel (closeOpenPanelA
      { panels := [
          { classes := ["panel", "open", "transitioning"], contentHeight := some 5,
            naturalHeight := 5 }]
        openedPanel := some 0 }) 0) ∧
    (getPanel (closeOpenPanelA
      { panels := [
          { classes := ["panel", "open", "transitioning"], contentHeight := some 5,
            naturalHeight := 5 }]
        openedPanel := some 0 }) 0).contentHeight = some 0 :=
  c8_click_open_closes [⟨false, 5⟩] [Event.click 0] _ 0 (by rfl) (by decide)

/-- C9: the defensive assertion of `_togglePanel` never fails in any state
reachable from the initial all-closed state: every event run succeeds, and
in every reachable state a panel whose DOM reports `open` equals the
internal `_openedPanel` reference, so the error branch of `assert` is
unreachable. -/
theorem c9_assert_unreachable (ps : List PanelInit) (evts : List Event) :
    (∃ s, runE (initState ps) evts = Except.ok s) ∧
    ∀ s, runE (initState ps) evts = Except.ok s →
      ∀ i, i < s.panels.length → IsOpenP (getPanel s i) → s.openedPanel = some i := by
  obtain ⟨s', hs', _⟩ := runE_ok_inv evts (initState ps) (initState_inv ps)
  refine ⟨⟨s', hs'⟩, ?_⟩
  intro s hrun i hi hopen
  exact open_eq_recorded s (runE_inv_of_ok evts _ s (initState_inv ps) hrun) i hi hopen

/-- Witness for C9: one panel opened by a click reports `open` and indeed
equals the recorded open panel. -/
theorem c9_witness :
    ({ panels := [
        { classes := ["panel", "open", "transitioning"], contentHeight := some 5,
          naturalHeight := 5 }]
       openedPanel := some 0 } : AccordionState).openedPanel = some 0 :=
  (c9_assert_unreachable [⟨false, 5⟩] [Event.click 0]).2 _ (by rfl) 0
    (by decide) (by decide)

/-- Counterexample to C4: a freshly rendered panel (no inline height) that
is clicked twice (with the transition timers firing in between) ends with
its class list restored but with an inline content height of `0` — not the
absent inline height of the original markup — so the DOM does not return
to exactly its original closed markup state. -/
theorem c4_counterexample :
    runE (initState [⟨false, 5⟩])
        [Event.click 0, Event.settle 0, Event.click 0, Event.settle 0] =
      Except.ok
        { panels := [
            { classes := ["panel"], contentHeight := some 0, naturalHeight := 5 }]
          openedPanel := none } ∧
    ({ classes := ["panel"], contentHeight := some 0, naturalHeight := 5 } :
        PanelState) ≠ initPanel ⟨false, 5⟩ ∧
    ({ classes := ["panel"], contentHeight := some 0, naturalHeight := 5 } :
        PanelState).classes = (initPanel ⟨false, 5⟩).classes ∧
    (initPanel ⟨false, 5⟩).contentHeight = none := by
  refine ⟨by rfl, by decide, by decide, by decide⟩

/-- C4 (amended): clicking the toggle of a closed panel twice in a row
(open, then close, letting each transition settle) restores the class list
exactly, but leaves the content region with an inline height of `0` rather
than the unset inline height of the original rendered markup. -/
theorem c4_roundtrip_amended (p : PanelState)
    (h1 : "open" ∉ p.classes) (h2 : "transitioning" ∉ p.classes) :
    (settlePanelState (closePanelState (settlePanelState (openPanelState p)))).classes =
      p.classes ∧
    (settlePanelState (closePanelState (settlePanelState (openPanelState p)))).contentHeight =
      some 0 := by
  have htr_open : ("transitioning" : String) ∉ p.classes ++ ["open"] := by
    intro hm
    rcases List.mem_append.mp hm with hm | hm
    · exact h2 hm
    · simp at hm
  have hfilter_tr : p.classes.filter (fun x => decide (x ≠ "transitioning")) = p.classes := by
    rw [List.filter_eq_self]
    intro a ha
    simp only [decide_eq_true_eq]
    intro hc
    exact h2 (hc ▸ ha)
  have hfilter_op : p.classes.filter (fun x => decide (x ≠ "open")) = p.classes := by
    rw [List.filter_eq_self]
    intro a ha
    simp only [decide_eq_true_eq]
    intro hc
    exact h1 (hc ▸ ha)
  have haddO : addClass p.classes ("open") = p.classes ++ ["open"] := by
    unfold addClass
    rw [if_neg h1]
  have haddT : addClass (p.classes ++ ["open"]) "transitioning" =
      p.classes ++ ["open", "transitioning"] := by
    unfold addClass
    rw [if_neg htr_open, List.append_assoc]
    rfl
  have hremT1 : removeClass (p.classes ++ ["open", "transitioning"]) "transitioning" =
      p.classes ++ ["open"] := by
    unfold removeClass
    rw [List.filter_append, hfilter_tr]
    exact congrArg (p.classes ++ ·) (by decide)
  have hremO : removeClass (p.classes ++ ["open", "transitioning"]) "open" =
      p.classes ++ ["transitioning"] := by
    unfold removeClass
    rw [List.filter_append, hfilter_op]
    exact congrArg (p.classes ++ ·) (by decide)
  have hremT2 : removeClass (p.classes ++ ["transitioning"]) "transitioning" =
      p.classes := by
    unfold removeClass
    rw [List.filter_append, hfilter_tr]
    rw [show List.filter (fun x => decide (x ≠ "transitioning")) ["transitioning"] =
        ([] : List String) from by decide]
    simp
  have e1 : openPanelState p =
      { p with
        classes := p.classes ++ ["open", "transitioning"],
        contentHeight := some p.naturalHeight } := by
    unfold openPanelState
    rw [if_neg (show ¬ IsOpenP p from h1), haddO, haddT]
  have e2 : settlePanelState (openPanelState p) =
      { p with
        classes := p.classes ++ ["open"],
        contentHeight := some p.naturalHeight } := by
    rw [e1]
    unfold settlePanelState
    rw [hremT1]
  have hopen2 : IsOpenP ({ p with
      classes := p.classes ++ ["open"],
      contentHeight := some p.naturalHeight } : PanelState) := by
    unfold IsOpenP
    simp
  have e3 : closePanelState (settlePanelState (openPanelState p)) =
      { p with
        classes := p.classes ++ ["transitioning"],
        contentHeight := some 0 } := by
    rw [e2]
    unfold closePanelState
    rw [if_pos hopen2]
    show ({ p with
      classes := removeClass (addClass (p.classes ++ ["open"]) "transitioning") "open",
      contentHeight := some 0 } : PanelState) = _
    rw [haddT, hremO]
  have e4 : settlePanelState (closePanelState (settlePanelState (openPanelState p))) =
      { p with classes := p.classes, contentHeight := some 0 } := by
    rw [e3]
    unfold settlePanelState
    rw [hremT2]
  rw [e4]
  exact ⟨rfl, rfl⟩

/-- Witness for C4 (amended): a freshly rendered panel with a
description. -/
theorem c4_witness :
    (settlePanelState (closePanelState (settlePanelState
        (openPanelState (initPanel ⟨true, 3⟩))))).classes =
      (initPanel ⟨true, 3⟩).classes ∧
    (settlePanelState (closePanelState (settlePanelState
        (openPanelState (initPanel ⟨true, 3⟩))))).contentHeight = some 0 :=
  c4_roundtrip_amended (initPanel ⟨true, 3⟩) (by decide) (by decide)

/-- C10: nil options (null or undefined) make the validator return
`ok = false` with exactly the single error `"Options must be provided."`,
with no field-level or per-panel checks performed. -/
theorem c10_nil_options :
    _validate none = Except.ok { ok := false, errors := [msgOptions] } ∧
    msgOptions = "Options must be provided." :=
  ⟨rfl, rfl⟩

/-- The error list of every successfully returned validation result starts
with the missing-required-parameter messages, followed by the panel-shape
messages. -/
theorem validate_errors_shape (o : OptionsObj) (r : ValidationResult)
    (hv : _validate (some o) = Except.ok r) :
    ∃ tailErrs, r.errors = missingMsgs o ++ tailErrs ∧
      (o.panels = some PanelsVal.notArray → msgPanelsArray ∈ tailErrs) ∧
      (∀ l i p, o.panels = some (PanelsVal.arr l) →
        l.get? i = some (PanelElem.obj p) →
        ∀ mpp ∈ missingPanelParams p, msgPanel i mpp ∈ tailErrs) := by
  rcases hp : o.panels with _ | pv
  · rw [validate_some_none o hp] at hv
    simp only [Except.ok.injEq] at hv
    refine ⟨[], by rw [← hv]; simp, ?_, ?_⟩
    · intro hc
      exact absurd hc (by simp)
    · intro l i p hc
      exact absurd hc (by simp)
  · cases pv with
    | notArray =>
      rw [validate_some_notArray o hp] at hv
      simp only [Except.ok.injEq] at hv
      refine ⟨[msgPanelsArray], by rw [← hv], fun _ => by simp, ?_⟩
      intro l i p hc
      exact absurd hc (by simp)
    | arr l =>
      cases hpe : panelErrors 0 l with
      | error e =>
        cases e
        rw [validate_some_arr_error o l hp hpe] at hv
        exact absurd hv (by simp)
      | ok pe =>
        rw [validate_some_arr o l pe hp hpe] at hv
        simp only [Except.ok.injEq] at hv
        refine ⟨pe, by rw [← hv], ?_, ?_⟩
        · intro hc
          exact absurd hc (by simp)
        · intro l' i p hc hg mpp hm
          simp only [Option.some.injEq, PanelsVal.arr.injEq] at hc
          subst hc
          have := panelErrors_mem l 0 i p pe hpe hg mpp hm
          simpa using this

/-- Counterexample to C2: a `panels` array containing a nil entry makes the
validator itself throw a `TypeError` when it reads `panel["title"]`, so it
does not return an ok/errors result for every input value. -/
theorem c2_counterexample :
    _validate (some
      { container := some ("host"), mainTitle := none,
        panels := some (PanelsVal.arr [PanelElem.nilElem]) }) = Except.error () := by
  rfl

/-- C2 (amended): for every options value whose `panels` array (when it is
an array) contains no nil entries, the validator returns an ok/errors
result without throwing and accumulates all violations in one pass:
`ok` holds exactly when the error list is empty; a missing `container`, a
missing `panels` and a non-array `panels` are each reported; and each
panel missing `title` or `content` is reported with its index. In
particular, for options missing both `container` and `panels`, both errors
appear in the same result. -/
theorem c2_validator_amended (opts : Option OptionsObj) (hnil : NoNilPanels opts) :
    (∃ r, _validate opts = Except.ok r) ∧
    (∀ r, _validate opts = Except.ok r → (r.ok = true ↔ r.errors = [])) ∧
    (∀ o r, opts = some o → _validate opts = Except.ok r →
      (o.container = none → msgMissing ("container") ∈ r.errors) ∧
      (o.panels = none → msgMissing ("panels") ∈ r.errors) ∧
      (o.panels = some PanelsVal.notArray → msgPanelsArray ∈ r.errors)) ∧
    (∀ o r l i p, opts = some o → _validate opts = Except.ok r →
      o.panels = some (PanelsVal.arr l) → l.get? i = some (PanelElem.obj p) →
      (p.title = none → msgPanel i ("title") ∈ r.errors) ∧
      (p.content = none → msgPanel i ("content") ∈ r.errors)) := by
  refine ⟨?_, fun r hr => validate_ok_iff opts r hr, ?_, ?_⟩
  · cases opts with
    | none => exact ⟨_, rfl⟩
    | some o =>
      rcases hp : o.panels with _ | pv
      · exact ⟨_, validate_some_none o hp⟩
      · cases pv with
        | notArray => exact ⟨_, validate_some_notArray o hp⟩
        | arr l =>
          obtain ⟨pe, hpe⟩ := panelErrors_ok l 0 (hnil l hp)
          exact ⟨_, validate_some_arr o l pe hp hpe⟩
  · rintro o r rfl hv
    obtain ⟨tailErrs, herr, hna, _⟩ := validate_errors_shape o r hv
    rw [herr]
    refine ⟨?_, ?_, ?_⟩
    · intro hc
      exact List.mem_append_left _ (mem_missingMsgs_container o hc)
    · intro hc
      exact List.mem_append_left _ (mem_missingMsgs_panels o hc)
    · intro hc
      exact List.mem_append_right _ (hna hc)
  · rintro o r l i p rfl hv hl hg
    obtain ⟨tailErrs, herr, _, hmem⟩ := validate_errors_shape o r hv
    rw [herr]
    constructor
    · intro hc
      exact List.mem_append_right _
        (hmem l i p hl hg ("title") (mem_missing_title p hc))
    · intro hc
      exact List.mem_append_right _
        (hmem l i p hl hg ("content") (mem_missing_content p hc))

/-- Witness for C2 (amended): for options missing both `container` and
`panels`, both errors appear in the one returned result. -/
theorem c2_witness :
    msgMissing ("container") ∈
      ({ ok := false,
         errors := [msgMissing ("container"), msgMissing ("panels")] } :
        ValidationResult).errors ∧
    msgMissing ("panels") ∈
      ({ ok := false,
         errors := [msgMissing ("container"), msgMissing ("panels")] } :
        ValidationResult).errors := by
  have h := c2_validator_amended
    (some { container := none, mainTitle := none, panels := none })
    (fun l hl => by simp at hl)
  have hboth := h.2.2.1 { container := none, mainTitle := none, panels := none }
    { ok := false, errors := [msgMissing ("container"), msgMissing ("panels")] }
    rfl (by rfl)
  exact ⟨hboth.1 rfl, hboth.2.1 rfl⟩

/-- Counterexample to C3: the constructor can throw although validation
succeeds. First scenario: valid options (container present, `panels` an
array) whose container id resolves to no element — `_render` throws a
`TypeError` on the nil `getElementById` result. Second scenario: valid
options, container found, but a panel `content` that injects an icon-less
`panel`-classed element (`<div class="panel"></div>`); the listener
environment reporting that parse outcome makes `_attachListeners` throw a
`TypeError` on the nil icon lookup. Validation returns `ok = true` in
both scenarios. -/
theorem c3_counterexample :
    construct (fun _ => false) (fun _ => true)
      (some { container := some ("host"), mainTitle := none,
              panels := some (PanelsVal.arr []) }) =
      Except.error ConstructorError.typeError ∧
    _validate (some
        { container := some ("host"), mainTitle := none,
          panels := some (PanelsVal.arr []) }) =
      Except.ok { ok := true, errors := [] } ∧
    construct (fun _ => true) (fun _ => false)
      (some { container := some ("host"), mainTitle := none,
              panels := some (PanelsVal.arr [PanelElem.obj
                { title := some ("t"), subtitle := none,
                  content := some ("<div class=\"panel\"></div>") }]) }) =
      Except.error ConstructorError.typeError ∧
    _validate (some
        { container := some ("host"), mainTitle := none,
          panels := some (PanelsVal.arr [PanelElem.obj
            { title := some ("t"), subtitle := none,
              content := some ("<div class=\"panel\"></div>") }]) }) =
      Except.ok { ok := true, errors := [] } :=
  ⟨rfl, rfl, rfl, rfl⟩

/-- C3 (amended): when validation returns `ok = false` the constructor
raises exactly one error, whose message concatenates all the validation
errors one per line, and it does not proceed to render (the error result
carries no rendered output). When validation succeeds, the container id
resolves to an element, and the listener pass finds a toggle icon in
every `panel`-classed element of the parsed rendered markup (true of the
renderer's own fragments; only injected caller markup can break it), it
does not throw; if that icon lookup fails, `_attachListeners` throws a
`TypeError` despite successful validation. In particular, constructing
with `panels` not an array (container present) yields the single
aggregated error naming the malformed `panels`, whatever the document
contains. -/
theorem c3_constructor_amended (dom : String → Bool) (iconsOk : List Char → Bool)
    (opts : Option OptionsObj)
    (r : ValidationResult) (hv : _validate opts = Except.ok r) :
    (r.ok = false → ∃ e es, r.errors = e :: es ∧
      construct dom iconsOk opts = Except.error (ConstructorError.invalidOptions
        (msgHeader ++ spacesStr es.length ++ "- " ++ e ++ tailLines es))) ∧
    (r.ok = true →
      dom ((opts.getD
        { container := none, mainTitle := none,
          panels := none }).container.getD ("")) = true →
      iconsOk (renderInner
        ((opts.getD { container := none, mainTitle := none, panels := none }).mainTitle.map String.data)
        (panelsOf (opts.getD { container := none, mainTitle := none, panels := none }))) = true →
      ∃ out, construct dom iconsOk opts = Except.ok out) ∧
    (r.ok = true →
      dom ((opts.getD
        { container := none, mainTitle := none,
          panels := none }).container.getD ("")) = true →
      iconsOk (renderInner
        ((opts.getD { container := none, mainTitle := none, panels := none }).mainTitle.map String.data)
        (panelsOf (opts.getD { container := none, mainTitle := none, panels := none }))) = false →
      construct dom iconsOk opts = Except.error ConstructorError.typeError) ∧
    construct dom iconsOk (some
        { container := some ("accordion"), mainTitle := none,
          panels := some PanelsVal.notArray }) =
      Except.error (ConstructorError.invalidOptions (mkMessage [msgPanelsArray])) := by
  refine ⟨?_,
    fun hok hdom hic => construct_ok dom iconsOk opts r hv hok hdom hic,
    fun hok hdom hic => construct_missing_icon dom iconsOk opts r hv hok hdom hic,
    rfl⟩
  intro hok
  have hiff := validate_ok_iff opts r hv
  cases herr : r.errors with
  | nil =>
    have := hiff.mpr herr
    rw [hok] at this
    exact absurd this (by simp)
  | cons e es =>
    refine ⟨e, es, rfl, ?_⟩
    have hc := construct_invalid dom iconsOk opts r hv hok
    rw [herr] at hc
    rw [hc, mkMessage_eq]

/-- Witness for C3 (amended): options missing both required fields give
the single aggregated two-line error. -/
theorem c3_witness :
    ∃ e es,
      ({ ok := false,
         errors := [msgMissing ("container"), msgMissing ("panels")] } :
        ValidationResult).errors = e :: es ∧
      construct (fun _ => true) (fun _ => true)
          (some { container := none, mainTitle := none, panels := none }) =
        Except.error (ConstructorError.invalidOptions
          (msgHeader ++ spacesStr es.length ++ "- " ++ e ++ tailLines es)) :=
  (c3_constructor_amended (fun _ => true) (fun _ => true)
    (some { container := none, mainTitle := none, panels := none })
    { ok := false, errors := [msgMissing ("container"), msgMissing ("panels")] }
    (by rfl)).1 rfl

/-- Counterexample to C5: the chained `replace` calls are not verbatim for
all inputs — a title containing the text `DESCRIPTION_PLACEHOLDER` is
mangled by the later placeholder replacement (its first occurrence is
inside the already-inserted title), so the fragment does not contain the
title as given. -/
theorem c5_counterexample :
    ¬ (({ title := "xDESCRIPTION_PLACEHOLDER".data, subtitle := none, content := "c".data } : RPanel).title <:+:
        renderPanel
          { title := "xDESCRIPTION_PLACEHOLDER".data, subtitle := none, content := "c".data }) := by
  rw [← occurs_iff]
  decide

/-- C5 (amended): for panels whose title, subtitle and content avoid the
template placeholder tokens still pending at their insertion point and
contain no dollar character, the fragment contains the title and the
content exactly as given (verbatim, unescaped). -/
theorem c5_verbatim_amended (p : RPanel)
    (hT1 : ¬ tokDP <:+: p.title) (hT2 : ¬ tokPC <:+: p.title)
    (hT3 : dollarChar ∉ p.title)
    (hS1 : ¬ tokPC <:+: p.subtitle.getD []) (hS2 : dollarChar ∉ p.subtitle.getD [])
    (hC : dollarChar ∉ p.content) :
    p.title <:+: renderPanel p ∧ p.content <:+: renderPanel p := by
  rw [renderPanel_shape p hT1 hT2 hT3 hS1 hS2 hC]
  by_cases htr : truthyStr p.subtitle = true
  · rw [if_pos htr]
    constructor
    · exact ⟨segA ++ (withDescriptionClass ++ segB),
        segC ++ (descPre ++ (p.subtitle.getD [] ++ (descPost ++ (segD ++
          (p.content ++ segE))))),
        by unfold withShape; simp [List.append_assoc]⟩
    · exact ⟨segA ++ (withDescriptionClass ++ (segB ++ (p.title ++ (segC ++
          (descPre ++ (p.subtitle.getD [] ++ (descPost ++ segD))))))), segE,
        by unfold withShape; simp [List.append_assoc]⟩
  · rw [if_neg htr]
    constructor
    · exact ⟨segA ++ segB, segC ++ (segD ++ (p.content ++ segE)),
        by unfold withoutShape; simp [List.append_assoc]⟩
    · exact ⟨segA ++ (segB ++ (p.title ++ (segC ++ segD))), segE,
        by unfold withoutShape; simp [List.append_assoc]⟩

/-- Witness for C5 (amended). -/
theorem c5_witness :
    ({ title := "Hello".data, subtitle := some ("sub".data), content := "<p>x</p>".data } : RPanel).title <:+:
      renderPanel
        { title := "Hello".data, subtitle := some ("sub".data), content := "<p>x</p>".data } ∧
    ({ title := "Hello".data, subtitle := some ("sub".data), content := "<p>x</p>".data } : RPanel).content <:+:
      renderPanel
        { title := "Hello".data, subtitle := some ("sub".data), content := "<p>x</p>".data } :=
  c5_verbatim_amended _ (by decide) (by decide) (by decide) (by decide)
    (by decide) (by decide)

/-- Counterexample to C6: a present-but-empty subtitle (`subtitle: ""`) is
falsy in the `hasDescription` check, so the fragment includes neither the
description block nor the `with-description` marker although the subtitle
field is present — "present" is not the condition the code tests. -/
theorem c6_counterexample :
    (({ title := "A".data, subtitle := some [], content := "c".data } :
        RPanel).subtitle.isSome = true) ∧
    ¬ (withDescriptionClass <:+:
        renderPanel { title := "A".data, subtitle := some [], content := "c".data }) ∧
    ¬ (descPre <:+:
        renderPanel { title := "A".data, subtitle := some [], content := "c".data }) := by
  refine ⟨rfl, ?_, ?_⟩
  · rw [← occurs_iff]
    decide
  · rw [← occurs_iff]
    decide

/-- C6 (amended): for panels with hygienic texts (no pending placeholder
tokens, no dollar character, and not containing the description markers
themselves), the fragment includes the description block and the
`with-description` class marker exactly when the subtitle is present and
non-empty (truthy): a truthy subtitle yields the with-description shape
containing both markers; otherwise the fragment is the shape without a
description and contains neither marker anywhere. -/
theorem c6_description_amended (p : RPanel)
    (hT1 : ¬ tokDP <:+: p.title) (hT2 : ¬ tokPC <:+: p.title)
    (hT3 : dollarChar ∉ p.title)
    (hS1 : ¬ tokPC <:+: p.subtitle.getD []) (hS2 : dollarChar ∉ p.subtitle.getD [])
    (hC : dollarChar ∉ p.content)
    (hTm : ¬ withDescriptionClass <:+: p.title)
    (hCm : ¬ withDescriptionClass <:+: p.content)
    (hTd : ¬ descPre <:+: p.title) (hCd : ¬ descPre <:+: p.content) :
    (truthyStr p.subtitle = true →
      renderPanel p = withShape p.title (p.subtitle.getD []) p.content ∧
      withDescriptionClass <:+: renderPanel p ∧ descPre <:+: renderPanel p) ∧
    (truthyStr p.subtitle = false →
      renderPanel p = withoutShape p.title p.content ∧
      ¬ withDescriptionClass <:+: renderPanel p ∧ ¬ descPre <:+: renderPanel p) := by
  have hmaster := renderPanel_shape p hT1 hT2 hT3 hS1 hS2 hC
  constructor
  · intro htr
    rw [if_pos htr] at hmaster
    refine ⟨hmaster, ?_, ?_⟩
    · rw [hmaster]
      exact ⟨segA, segB ++ (p.title ++ (segC ++ (descPre ++ (p.subtitle.getD [] ++
          (descPost ++ (segD ++ (p.content ++ segE))))))),
        by unfold withShape; simp [List.append_assoc]⟩
    · rw [hmaster]
      exact ⟨segA ++ (withDescriptionClass ++ (segB ++ (p.title ++ segC))),
        p.subtitle.getD [] ++ (descPost ++ (segD ++ (p.content ++ segE))),
        by unfold withShape; simp [List.append_assoc]⟩
  · intro htr
    have hneg : ¬ truthyStr p.subtitle = true := by
      rw [htr]
      simp
    rw [if_neg hneg] at hmaster
    refine ⟨hmaster, ?_, ?_⟩
    · rw [hmaster]
      exact marker_not_in_withoutShape _ _ hTm hCm
    · rw [hmaster]
      exact descPre_not_in_withoutShape _ _ hTd hCd

/-- Witness for C6 (amended): a panel with a non-empty subtitle. -/
theorem c6_witness :
    renderPanel { title := "T".data, subtitle := some ("d".data), content := "x".data } =
      withShape ({ title := "T".data, subtitle := some ("d".data), content := "x".data } : RPanel).title
        (({ title := "T".data, subtitle := some ("d".data), content := "x".data } : RPanel).subtitle.getD [])
        ({ title := "T".data, subtitle := some ("d".data), content := "x".data } : RPanel).content ∧
    withDescriptionClass <:+:
      renderPanel { title := "T".data, subtitle := some ("d".data), content := "x".data } ∧
    descPre <:+:
      renderPanel { title := "T".data, subtitle := some ("d".data), content := "x".data } :=
  (c6_description_amended
    { title := "T".data, subtitle := some ("d".data), content := "x".data }
    (by decide) (by decide) (by decide) (by decide) (by decide) (by decide)
    (by decide) (by decide) (by decide) (by decide)).1 rfl

/-- C7: rendering the two concrete panels produces exactly two fragments,
concatenated in order into the `innerHTML`; the second fragment includes
the description block and the `with-description` marker, the first
includes neither. -/
theorem c7_two_panel_fragments :
    (([{ title := "A".data, subtitle := none, content := "<p>a</p>".data },
       { title := "B".data, subtitle := some ("sub".data), content := "<p>b</p>".data }] : List RPanel).map renderPanel).length = 2 ∧
    renderInner none
        [{ title := "A".data, subtitle := none, content := "<p>a</p>".data },
         { title := "B".data, subtitle := some ("sub".data), content := "<p>b</p>".data }] =
      renderPanel { title := "A".data, subtitle := none, content := "<p>a</p>".data } ++
        renderPanel { title := "B".data, subtitle := some ("sub".data), content := "<p>b</p>".data } ∧
    withDescriptionClass <:+:
      renderPanel { title := "B".data, subtitle := some ("sub".data), content := "<p>b</p>".data } ∧
    descPre <:+:
      renderPanel { title := "B".data, subtitle := some ("sub".data), content := "<p>b</p>".data } ∧
    ¬ withDescriptionClass <:+:
      renderPanel { title := "A".data, subtitle := none, content := "<p>a</p>".data } ∧
    ¬ descPre <:+:
      renderPanel { title := "A".data, subtitle := none, content := "<p>a</p>".data } := by
  refine ⟨rfl, ?_, ?_, ?_, ?_, ?_⟩
  · simp [renderInner]
  · rw [← occurs_iff]
    decide
  · rw [← occurs_iff]
    decide
  · rw [← occurs_iff]
    decide
  · rw [← occurs_iff]
    decide

end Accordion
